import Mathlib

/-!
Verification development for the OPME consignment-control backend
(`src/services/xml_parser.py`, `src/services/saldo_service.py`,
`src/models/nota_fiscal.py`).

The Python source is shallowly embedded below: pure parsing helpers become
Lean functions over an XML element tree, the SQLAlchemy-backed service
methods become explicit state-passing functions over lists of rows, and
Python `float` values are modelled as rationals together with an explicit
IEEE-754 binary64 rounding function where the binary representation is
observable.
-/

/-- Python truthiness of an optional string (`None` and `""` are falsy).
`xml.etree` `findtext` yields `None` when the element is absent and `""`
when it is present but empty, so `Option String` carries exactly the
values the source branches on. -/
def pyTruthy : Option String → Bool
  | none => false
  | some s => !s.isEmpty

/-- Python's `a or b` on optional strings: the left operand if truthy,
otherwise the right operand. -/
def pyOr (a b : Option String) : Option String :=
  if pyTruthy a then a else b

/-- Round a rational to the nearest integer, ties to even. -/
def roundHalfEven (y : ℚ) : ℤ :=
  if y - (⌊y⌋ : ℚ) < 1 / 2 then ⌊y⌋
  else if 1 / 2 < y - (⌊y⌋ : ℚ) then ⌊y⌋ + 1
  else if ⌊y⌋ % 2 = 0 then ⌊y⌋ else ⌊y⌋ + 1

/-- Round a rational to the nearest IEEE-754 binary64 value (round half to
even), returned as the exact rational it denotes: the significand is scaled
to `[2 ^ 52, 2 ^ 53)` and rounded.  This models CPython's correctly rounded
`float(<decimal literal>)` conversion and `float(Decimal)` for values in
the binary64 normal range `2 ^ (-1022) ≤ |q| < 2 ^ 1024`; overflow and
subnormal underflow are outside the range the development evaluates it
on. -/
def roundDouble (q : ℚ) : ℚ :=
  if q = 0 then 0
  else
    (if q < 0 then (-1 : ℚ) else 1) *
      ((roundHalfEven (|q| * (2 : ℚ) ^ (52 - Int.log 2 |q|)) : ℤ) : ℚ) *
      (2 : ℚ) ^ (Int.log 2 |q| - 52)

/-- IEEE-754 binary64 subtraction on already-representable values:
the exact difference, rounded. -/
def fsub (a b : ℚ) : ℚ := roundDouble (a - b)

/-- IEEE-754 binary64 addition on already-representable values: the exact
sum, rounded.  This is the semantics of Python `float += float`, the only
counter-update statement in the source that does not raise (see
`processar_saida_consignacao`). -/
def fadd (a b : ℚ) : ℚ := roundDouble (a + b)

/-- Numeric value of a decimal digit character. -/
def digitVal (c : Char) : ℕ := c.toNat - 48

/-- Value of a list of decimal digit characters read left to right. -/
def digitsToNat (cs : List Char) : ℕ :=
  cs.foldl (fun acc c => acc * 10 + digitVal c) 0

/-- Split a character list at the first `'.'`, if any. -/
def splitOnDot (cs : List Char) : List Char × Option (List Char) :=
  match cs.span (· ≠ '.') with
  | (ip, []) => (ip, none)
  | (ip, _ :: fp) => (ip, some fp)

/-- Exact rational value of an unsigned decimal literal (digits, optionally
with one decimal point; at least one digit overall), or `none` when the
characters are not such a literal. -/
def parseUnsignedDecimal (cs : List Char) : Option ℚ :=
  match splitOnDot cs with
  | (ip, none) =>
      if ip ≠ [] ∧ ip.all Char.isDigit then some ((digitsToNat ip : ℕ) : ℚ)
      else none
  | (ip, some fp) =>
      if (ip ≠ [] ∨ fp ≠ []) ∧ ip.all Char.isDigit ∧ fp.all Char.isDigit then
        some (((digitsToNat ip : ℕ) : ℚ) + ((digitsToNat fp : ℕ) : ℚ) / (10 : ℚ) ^ fp.length)
      else none

/-- Exact rational value of a signed decimal literal.  Models the grammar
CPython's `float()` accepts restricted to plain decimal literals (optional
sign, digits, optional fractional part); exponent, `inf`/`nan`, underscore
and surrounding-whitespace forms are outside the modelled input space, so
the model rejects (`none`) where the source may accept. -/
def parseDecimal (s : String) : Option ℚ :=
  match s.toList with
  | '-' :: rest => (parseUnsignedDecimal rest).map Neg.neg
  | '+' :: rest => parseUnsignedDecimal rest
  | cs => parseUnsignedDecimal cs

/-- CPython `float(<string>)` on a plain decimal literal: the exact decimal
value rounded to the nearest binary64 double. -/
def pyFloatOfString (s : String) : Option ℚ :=
  (parseDecimal s).map roundDouble

/-- An XML element after the source's namespace stripping
(`XMLParser._remove_namespaces`): bare tag name, attributes, optional text
content, and child elements in document order. -/
inductive XElem where
  | mk (tag : String) (attrs : List (String × String)) (text : Option String)
      (children : List XElem)

/-- Tag name of an element. -/
def XElem.tag : XElem → String
  | .mk t _ _ _ => t

/-- Attribute list of an element. -/
def XElem.attrs : XElem → List (String × String)
  | .mk _ a _ _ => a

/-- Text content of an element (`none` when absent). -/
def XElem.text : XElem → Option String
  | .mk _ _ tx _ => tx

/-- Child elements of an element, in document order. -/
def XElem.children : XElem → List XElem
  | .mk _ _ _ cs => cs

mutual

/-- All proper descendants of an element, in document order (the order
`xml.etree` uses for `.//` path lookups). -/
def XElem.descendants : XElem → List XElem
  | .mk _ _ _ cs => descendantsList cs

/-- Concatenation of each listed element with its descendants, in order. -/
def descendantsList : List XElem → List XElem
  | [] => []
  | c :: cs => c :: (XElem.descendants c ++ descendantsList cs)

end

mutual

/-- Decidable equality for `XElem`. -/
def XElem.beq : XElem → XElem → Bool
  | .mk t a tx cs, .mk t' a' tx' cs' =>
      t == t' && a == a' && tx == tx' && XElem.beqList cs cs'

/-- Decidable equality for lists of `XElem`. -/
def XElem.beqList : List XElem → List XElem → Bool
  | [], [] => true
  | c :: cs, d :: ds => XElem.beq c d && XElem.beqList cs ds
  | _, _ => false

end

instance : BEq XElem := ⟨XElem.beq⟩

/-- `ElementTree` attribute lookup `element.get(name)`. -/
def XElem.attr (e : XElem) (name : String) : Option String :=
  (e.attrs.filter (fun p => p.1 == name)).head?.map Prod.snd

/-- `findtext` semantics for a found element: its text, or `""` when the
element has no text. -/
def XElem.textOrEmpty (e : XElem) : String := e.text.getD ""

/-- `element.find('.//tag')`: first descendant with the given tag, in
document order. -/
def XElem.findDeep (e : XElem) (t : String) : Option XElem :=
  (e.descendants.filter (fun c => c.tag == t)).head?

/-- `element.findall('.//tag')`: all descendants with the given tag. -/
def XElem.findAllDeep (e : XElem) (t : String) : List XElem :=
  e.descendants.filter (fun c => c.tag == t)

/-- `element.find('tag')`: first direct child with the given tag. -/
def XElem.findChild (e : XElem) (t : String) : Option XElem :=
  (e.children.filter (fun c => c.tag == t)).head?

/-- `element.findtext('tag')`: text of the first direct child with the
given tag, `none` when absent. -/
def XElem.childText (e : XElem) (t : String) : Option String :=
  (e.findChild t).map XElem.textOrEmpty

/-- `element.findtext('.//tag')`: text of the first matching descendant. -/
def XElem.findtextDeep (e : XElem) (t : String) : Option String :=
  (e.findDeep t).map XElem.textOrEmpty

/-- `element.findtext('.//prod/CFOP')`: text of the first `CFOP` child of a
descendant `prod` element. -/
def XElem.findtextProdCFOP (e : XElem) : Option String :=
  (((e.descendants.filter (fun c => c.tag == "prod")).flatMap
      (fun p => p.children.filter (fun c => c.tag == "CFOP"))).head?).map
    XElem.textOrEmpty

/-- Separator class `[:\s]` of the source's lot patterns. -/
def isSepChar (c : Char) : Bool := c == ':' || c.isWhitespace

/-- Capture class `[^\s,;\.]` of the source's lot patterns: any character
that is not whitespace, comma, semicolon or period (colons are allowed). -/
def isCapChar (c : Char) : Bool := !(c.isWhitespace || c == ',' || c == ';' || c == '.')

/-- Case-insensitive literal match: consume the pattern characters (given
in lowercase) from the input, returning the rest of the input. -/
def matchLit : List Char → List Char → Option (List Char)
  | [], rest => some rest
  | _ :: _, [] => none
  | p :: ps, d :: ds => if d.toLower == p then matchLit ps ds else none

/-- Drop the maximal `[:\s]*` run.  The following pattern element is always
a literal starting with a letter, so the maximal run is the only viable
match for the greedy `[:\s]*`. -/
def skipSeps (cs : List Char) : List Char := cs.dropWhile isSepChar

/-- Match a sequence of case-insensitive literals joined by `[:\s]*`
(the shape of the source's compound labels such as `nr[:\s]*lote`),
returning the input remaining after the last literal. -/
def matchLabelSeq : List (List Char) → List Char → Option (List Char)
  | [], input => some input
  | [l], input => matchLit l input
  | l :: ls, input => (matchLit l input).bind fun r => matchLabelSeq ls (skipSeps r)

/-- Maximal run of capture-class characters. -/
def capRun (cs : List Char) : List Char := cs.takeWhile isCapChar

/-- Backtracking split for the trailing `[:\s]+([^\s,;\.]+)` of each
pattern: try consuming `j` separator characters, largest `j` first (greedy
`+`), and return the first nonempty capture run found after them. -/
def trySplit (rest : List Char) : ℕ → Option (List Char)
  | 0 => none
  | j + 1 =>
      let cap := capRun (rest.drop (j + 1))
      if cap.isEmpty then trySplit rest j else some cap

/-- Match `[:\s]+` followed by a nonempty capture `([^\s,;\.]+)` at the
start of `rest`, with the regex engine's greedy backtracking. -/
def sepCapture (rest : List Char) : Option (List Char) :=
  trySplit rest ((rest.takeWhile isSepChar).length)

/-- Attempt one of the source's lot patterns anchored at the start of
`input`; returns the captured group.  The source's `.strip()` on the
capture is the identity because the capture class excludes whitespace. -/
def matchAt (labels : List (List Char)) (input : List Char) : Option String :=
  (matchLabelSeq labels input).bind fun rest => (sepCapture rest).map List.asString

/-- `re.search` for one lot pattern: try each start position left to
right and return the capture of the first position that matches. -/
def searchFrom (labels : List (List Char)) : List Char → Option String
  | [] => none
  | input@(_ :: rest) =>
      match matchAt labels input with
      | some cap => some cap
      | none => searchFrom labels rest

/-- `re.search(pattern, s, re.IGNORECASE)` for one lot pattern given by
its literal labels. -/
def reSearch (labels : List String) (s : String) : Option String :=
  searchFrom (labels.map String.toList) s.toList

/-- The source's ordered lot pattern list
(`lote`, `l`, `lot`, `batch`, `nr lote`, `numero lote`), each standing for
`<labels joined by [:\s]*>[:\s]+([^\s,;\.]+)` matched case-insensitively. -/
def lote_patterns : List (List String) :=
  [["lote"], ["l"], ["lot"], ["batch"], ["nr", "lote"], ["numero", "lote"]]

/-- The source's pattern loop: try each pattern in order and stop at the
first one whose search succeeds anywhere in the string. -/
def searchLotePatterns : List (List String) → String → Option String
  | [], _ => none
  | p :: ps, s =>
      match reSearch p s with
      | some cap => some cap
      | none => searchLotePatterns ps s

/-- Result of `XMLParser._extract_lote_data` for one line item. -/
structure LoteData where
  numero_lote : Option String
  data_fabricacao : Option String
  data_validade : Option String
deriving DecidableEq

/-- Date text kept when truthy.  The source additionally parses the text
with `datetime.strptime('%Y-%m-%d')` and drops it when unparsable; that
format check is abstracted away here (no claim concerns the date
fields). -/
def keptDate (t : Option String) : Option String :=
  if pyTruthy t then t else none

/-- `XMLParser._extract_lote_data`: lot data for one `det` element, tried
in priority order — `rastro` traceability block, then `med` block, then
free-text patterns over `infAdProd`. -/
def extract_lote_data (det : XElem) : LoteData :=
  let r1 : LoteData :=
    match det.findDeep "rastro" with
    | some rastro =>
        { numero_lote := rastro.childText "nLote"
          data_fabricacao := keptDate (rastro.childText "dFab")
          data_validade := keptDate (rastro.childText "dVal") }
    | none => { numero_lote := none, data_fabricacao := none, data_validade := none }
  if pyTruthy r1.numero_lote then r1
  else
    let r2 : LoteData :=
      match det.findDeep "med" with
      | some med =>
          { numero_lote := med.childText "nLote"
            data_fabricacao :=
              if pyTruthy (med.childText "dFab") then med.childText "dFab"
              else r1.data_fabricacao
            data_validade :=
              if pyTruthy (med.childText "dVal") then med.childText "dVal"
              else r1.data_validade }
      | none => r1
    if pyTruthy r2.numero_lote then r2
    else
      match searchLotePatterns lote_patterns ((det.findtextDeep "infAdProd").getD "") with
      | some cap => { r2 with numero_lote := some cap }
      | none => r2

/-- One parsed line item (`XMLParser._extract_itens_data` element). -/
structure ItemData where
  codigo_produto : String
  descricao_produto : String
  quantidade : ℚ
  valor_unitario : ℚ
  valor_total : ℚ
  numero_lote : Option String
  data_fabricacao : Option String
  data_validade : Option String
deriving DecidableEq

/-- One parsed invoice (`XMLParser.parse_xml` result). -/
structure NFData where
  numero : Option String
  serie : Option String
  chave_acesso : String
  data_emissao : Option String
  cfop : String
  tipo_operacao : String
  destinatario_cnpj : String
  destinatario_nome : String
  itens : List ItemData
deriving DecidableEq

/-- `XMLParser.CFOP_MAPPING` with the dictionary's `get` default
`'outros'` for unknown codes. -/
def CFOP_MAPPING (cfop : String) : String :=
  if cfop == "5917" then "saida"
  else if cfop == "6917" then "saida"
  else if cfop == "1918" then "retorno"
  else if cfop == "2918" then "retorno"
  else if cfop == "1919" then "simbolico"
  else if cfop == "2919" then "simbolico"
  else if cfop == "5114" then "faturamento"
  else if cfop == "6114" then "faturamento"
  else "outros"

/-- `XMLParser._extract_cfop`: fiscal code from the first line item's tax
block, with the source's two fallback locations. -/
def extract_cfop (root : XElem) : String :=
  match root.findDeep "det" with
  | none => ""
  | some det =>
      match det.findDeep "imposto" with
      | none => ""
      | some imposto =>
          (pyOr (pyOr (imposto.findtextDeep "CFOP") (det.findtextDeep "CFOP"))
            det.findtextProdCFOP).getD ""

/-- Counterparty data (`XMLParser._extract_destinatario_data` result). -/
structure DestData where
  cnpj : String
  nome : String
deriving DecidableEq

/-- Keep only decimal digits (the source's `re.sub(r'[^\d]', '', s)`). -/
def soDigitos (s : String) : String :=
  String.mk (s.toList.filter Char.isDigit)

/-- `XMLParser._extract_destinatario_data`: prefer the `dest` block,
falling back to `emit`; tax id from `CNPJ` or `CPF` stripped to digits;
name from `xNome` or `xFant`. -/
def extract_destinatario_data (root : XElem) : DestData :=
  let dest? :=
    match root.findDeep "dest" with
    | some d => some d
    | none => root.findDeep "emit"
  match dest? with
  | none => { cnpj := "", nome := "" }
  | some dest =>
      { cnpj := soDigitos ((pyOr (dest.childText "CNPJ") (dest.childText "CPF")).getD "")
        nome := (pyOr (dest.childText "xNome") (dest.childText "xFant")).getD "" }

/-- Python's `str.replace('NFe', '')`: delete every non-overlapping
occurrence of `NFe`, scanning left to right. -/
def replaceNFe : List Char → List Char
  | 'N' :: 'F' :: 'e' :: rest => replaceNFe rest
  | c :: rest => c :: replaceNFe rest
  | [] => []

/-- Header fields (`XMLParser._extract_nf_data` result). -/
structure NFHeaderData where
  numero : Option String
  serie : Option String
  chave_acesso : String
  data_emissao : Option String
deriving DecidableEq

/-- Python's `str.replace('Z', '+00:00')` over the character list. -/
def replaceZ (cs : List Char) : List Char :=
  cs.flatMap fun c => if c == 'Z' then ['+', '0', '0', ':', '0', '0'] else [c]

/-- Numeric value of a two-digit group. -/
def twoDigitVal (a b : Char) : ℕ := digitVal a * 10 + digitVal b

/-- Consume a leading `YYYY-MM-DD` calendar date, returning the rest.
Conservative: days are restricted to `01`-`28`, so every accepted date is
a calendar date accepted by the source's `strptime`/`fromisoformat`. -/
def validDatePrefix : List Char → Option (List Char)
  | y1 :: y2 :: y3 :: y4 :: '-' :: m1 :: m2 :: '-' :: d1 :: d2 :: rest =>
      if y1.isDigit && y2.isDigit && y3.isDigit && y4.isDigit && m1.isDigit && m2.isDigit &&
          d1.isDigit && d2.isDigit && decide (1 ≤ twoDigitVal m1 m2) &&
          decide (twoDigitVal m1 m2 ≤ 12) && decide (1 ≤ twoDigitVal d1 d2) &&
          decide (twoDigitVal d1 d2 ≤ 28) then
        some rest
      else none
  | _ => none

/-- Consume a leading `HH:MM:SS` time, returning the rest. -/
def validTimePrefix : List Char → Option (List Char)
  | h1 :: h2 :: ':' :: n1 :: n2 :: ':' :: s1 :: s2 :: rest =>
      if h1.isDigit && h2.isDigit && n1.isDigit && n2.isDigit && s1.isDigit && s2.isDigit &&
          decide (twoDigitVal h1 h2 ≤ 23) && decide (twoDigitVal n1 n2 ≤ 59) &&
          decide (twoDigitVal s1 s2 ≤ 59) then
        some rest
      else none
  | _ => none

/-- An empty remainder or a `±HH:MM` timezone offset. -/
def validOffsetRest : List Char → Bool
  | [] => true
  | sgn :: h1 :: h2 :: ':' :: n1 :: n2 :: [] =>
      (sgn == '+' || sgn == '-') && h1.isDigit && h2.isDigit && n1.isDigit && n2.isDigit &&
        decide (twoDigitVal h1 h2 ≤ 23) && decide (twoDigitVal n1 n2 ≤ 59)
  | _ => false

/-- Whether the source's emission-date parsing succeeds on a truthy
string: `datetime.fromisoformat(s.replace('Z', '+00:00'))` when the
string contains `T`, else `datetime.strptime(s, '%Y-%m-%d')`.  Modelled
conservatively by recognizers for `YYYY-MM-DDTHH:MM:SS[±HH:MM]` and
`YYYY-MM-DD` with day at most 28 and no fractional seconds: every string
this model accepts is accepted by the source, so success conclusions
proved from it never overclaim; a string the source accepts but the model
rejects only takes the model's internal-error path, on which no claim
relies. -/
def parsesAsDate (s : String) : Bool :=
  let cs := s.toList
  if cs.contains 'T' then
    match validDatePrefix (replaceZ cs) with
    | some ('T' :: rest) =>
        match validTimePrefix rest with
        | some rest2 => validOffsetRest rest2
        | none => false
    | _ => false
  else
    match validDatePrefix cs with
    | some [] => true
    | _ => false

/-- `XMLParser._extract_nf_data`: `none` models the `ValueError` raised
when the `ide` block is missing.  A truthy emission string that parses in
one of the source's two datetime formats is kept as its raw text; an
absent, falsy or unparsable string yields `None` (tolerated at parse
time; the `nullable=False` column then fails at flush, which
`processar_nota_fiscal` models). -/
def extract_nf_data (root : XElem) : Option NFHeaderData :=
  match root.findDeep "ide" with
  | none => none
  | some ide =>
      let chave :=
        match root.findDeep "infNFe" with
        | some inf => String.mk (replaceNFe ((inf.attr "Id").getD "").toList)
        | none => ""
      let dstr := pyOr (ide.childText "dhEmi") (ide.childText "dEmi")
      some
        { numero := ide.childText "nNF"
          serie := ide.childText "serie"
          chave_acesso := chave
          data_emissao :=
            if pyTruthy dstr && parsesAsDate (dstr.getD "") then dstr else none }

/-- `float(findtext(..) or 0)` for a numeric field: `0` when the text is
absent or empty, otherwise the decimal literal rounded to binary64;
`none` models the `ValueError` float() raises on a non-literal. -/
def pyFloatField (t : Option String) : Option ℚ :=
  if pyTruthy t then pyFloatOfString (t.getD "")
  else some 0

/-- Loop body of `XMLParser._extract_itens_data` over the `det` elements:
items without a `prod` child are skipped; `none` models a `ValueError`
from a numeric field. -/
def extract_itens_aux : List XElem → Option (List ItemData)
  | [] => some []
  | det :: rest =>
      match det.findChild "prod" with
      | none => extract_itens_aux rest
      | some prod => do
          let q ← pyFloatField (prod.childText "qCom")
          let vu ← pyFloatField (prod.childText "vUnCom")
          let vt ← pyFloatField (prod.childText "vProd")
          let lote := extract_lote_data det
          let tail ← extract_itens_aux rest
          pure
            ({ codigo_produto := (prod.childText "cProd").getD ""
               descricao_produto := (prod.childText "xProd").getD ""
               quantidade := q
               valor_unitario := vu
               valor_total := vt
               numero_lote := lote.numero_lote
               data_fabricacao := lote.data_fabricacao
               data_validade := lote.data_validade } :: tail)

/-- `XMLParser._extract_itens_data`. -/
def extract_itens_data (root : XElem) : Option (List ItemData) :=
  extract_itens_aux (root.findAllDeep "det")

/-- `XMLParser.validate_xml_structure` on the namespace-stripped tree
(the string-level `ET.ParseError` branch is below the modelled layer). -/
def validate_xml_structure (root : XElem) : Bool × String :=
  if (root.findDeep "infNFe").isNone then
    (false, "XML nao e uma Nota Fiscal Eletronica valida")
  else
    match root.findDeep "ide" with
    | none => (false, "Tag ide nao encontrada no XML")
    | some ide =>
        if !pyTruthy (ide.childText "nNF") then
          (false, "Numero da nota fiscal nao encontrado")
        else if !pyTruthy (ide.childText "serie") then
          (false, "Serie da nota fiscal nao encontrada")
        else if (root.findAllDeep "det").isEmpty then
          (false, "Nenhum item encontrado na nota fiscal")
        else (true, "")

/-- `XMLParser.parse_xml` on the namespace-stripped tree; `none` models
the `ValueError` the source re-raises from any extraction step. -/
def parse_xml (root : XElem) : Option NFData := do
  let hdr ← extract_nf_data root
  let dest := extract_destinatario_data root
  let itens ← extract_itens_data root
  let cfop := extract_cfop root
  pure
    { numero := hdr.numero
      serie := hdr.serie
      chave_acesso := hdr.chave_acesso
      data_emissao := hdr.data_emissao
      cfop := cfop
      tipo_operacao := CFOP_MAPPING cfop
      destinatario_cnpj := dest.cnpj
      destinatario_nome := dest.nome
      itens := itens }

/-- One `saldos_materiais` row (`SaldoMaterial` model).  `id` and
`created_at` are assigned from a monotone counter at creation, modelling
the autoincrement key and insertion timestamp. -/
structure SaldoMaterial where
  id : ℕ
  cliente_cnpj : String
  cliente_nome : String
  codigo_produto : String
  descricao_produto : String
  numero_lote : Option String
  nf_saida_numero : Option String
  nf_saida_serie : Option String
  nf_saida_chave : String
  quantidade_enviada : ℚ
  quantidade_retornada : ℚ
  quantidade_utilizada : ℚ
  quantidade_faturada : ℚ
  created_at : ℕ
deriving DecidableEq

/-- The `SaldoMaterial.saldo_disponivel` property: the source converts
each stored decimal counter to a Python float and subtracts in float
arithmetic, so each step is modelled with binary64 rounding. -/
def SaldoMaterial.saldo_disponivel (s : SaldoMaterial) : ℚ :=
  fsub (fsub (roundDouble s.quantidade_enviada) (roundDouble s.quantidade_retornada))
    (roundDouble s.quantidade_utilizada)

/-- One `logger.warning` record for an unmatched allocation, carrying the
values the source interpolates into the message. -/
structure Warning where
  contexto : String
  cliente : String
  produto : String
  lote : Option String
deriving DecidableEq

/-- Ledger-side state: the `saldos_materiais` table, the warning log, and
the creation counter. -/
structure LedgerState where
  saldos : List SaldoMaterial
  log : List Warning
  clock : ℕ
deriving DecidableEq

/-- Pair each row with its position, used to model in-place mutation of a
queried row. -/
def enumSaldos : ℕ → List SaldoMaterial → List (ℕ × SaldoMaterial)
  | _, [] => []
  | i, s :: rest => (i, s) :: enumSaldos (i + 1) rest

/-- The `filter_by` predicate of `_processar_saida_consignacao`: exact
(cliente, produto, lote, chave de saida) tuple match. -/
def filtroSaida (cnpj : String) (produto : String) (lote : Option String) (chave : String)
    (s : SaldoMaterial) : Bool :=
  s.cliente_cnpj == cnpj && s.codigo_produto == produto && s.numero_lote == lote &&
    s.nf_saida_chave == chave

/-- The `filter_by(...).first()` lookup of `_processar_saida_consignacao`,
returning the row's position for the in-place update. -/
def buscaSaida (cnpj : String) (produto : String) (lote : Option String) (chave : String)
    (saldos : List SaldoMaterial) : Option (ℕ × SaldoMaterial) :=
  ((enumSaldos 0 saldos).filter fun p => filtroSaida cnpj produto lote chave p.2).head?

/-- The `filter` predicate of `_buscar_saldo_para_retorno`: same
(cliente, produto, lote) triple — the shipment key is not part of the
search — and strictly positive available quantity
(`quantidade_enviada > quantidade_retornada + quantidade_utilizada`,
compared exactly on the stored decimals by the database). -/
def elegivel (cnpj : String) (produto : String) (lote : Option String)
    (s : SaldoMaterial) : Bool :=
  s.cliente_cnpj == cnpj && s.codigo_produto == produto && s.numero_lote == lote &&
    decide (s.quantidade_retornada + s.quantidade_utilizada < s.quantidade_enviada)

/-- `SaldoService._buscar_saldo_para_retorno`:
`order_by(created_at.asc()).first()` over the eligible rows, i.e. the
first listed row of minimal `created_at`, with its position. -/
def buscar_saldo_para_retorno (cnpj : String) (produto : String) (lote : Option String)
    (saldos : List SaldoMaterial) : Option (ℕ × SaldoMaterial) :=
  ((enumSaldos 0 saldos).filter fun p => elegivel cnpj produto lote p.2).argmin
    fun p => p.2.created_at

/-- The `SaldoMaterial(...)` constructor call of
`_processar_saida_consignacao`, with creation counter `t`. -/
def novoSaldo (nf : NFData) (item : ItemData) (t : ℕ) : SaldoMaterial :=
  { id := t
    cliente_cnpj := nf.destinatario_cnpj
    cliente_nome := nf.destinatario_nome
    codigo_produto := item.codigo_produto
    descricao_produto := item.descricao_produto
    numero_lote := item.numero_lote
    nf_saida_numero := nf.numero
    nf_saida_serie := nf.serie
    nf_saida_chave := nf.chave_acesso
    quantidade_enviada := item.quantidade
    quantidade_retornada := 0
    quantidade_utilizada := 0
    quantidade_faturada := 0
    created_at := t }

/-- `SaldoService._processar_saida_consignacao`: add to the shipped
counter of the exact-tuple row, or create a new row.  The update is
Python `saldo.quantidade_enviada += item_data['quantidade']` with a float
right operand: when the matched row was created during the current
ingestion (`sessionStart ≤ id`, the creation counter at the start of the
call) its attribute is still the Python float assigned at construction,
so the addition succeeds in binary64 (`fadd`); when the row was loaded
from the database its `Numeric(15, 4)` counters arrive as
`decimal.Decimal`, `Decimal += float` raises `TypeError`, and the
ingestion rolls back — modelled by `none`. -/
def processar_saida_consignacao (sessionStart : ℕ) (nf : NFData) (item : ItemData)
    (ls : LedgerState) : Option LedgerState :=
  match buscaSaida nf.destinatario_cnpj item.codigo_produto item.numero_lote nf.chave_acesso
      ls.saldos with
  | some (i, s) =>
      if sessionStart ≤ s.id then
        some { ls with saldos :=
            (ls.saldos.set i
              { s with quantidade_enviada := fadd s.quantidade_enviada item.quantidade }) }
      else none
  | none =>
      some { ls with
          saldos := ls.saldos ++ [novoSaldo nf item ls.clock]
          clock := ls.clock + 1 }

/-- `SaldoService._processar_retorno_consignacao`: on a match the source
executes `saldo.quantidade_retornada += item_data['quantidade']`.  The
matched row is always loaded from the database — non-shipment operations
never create rows and one invoice carries one operation kind, and even a
hypothetical session-fresh row never had this counter assigned in Python,
so the attribute refreshes from the database — hence the counter is a
`decimal.Decimal` and the float addend raises `TypeError`: modelled by
`none`, which the orchestrator turns into a rollback.  With no match,
only a warning is logged. -/
def processar_retorno_consignacao (nf : NFData) (item : ItemData) (ls : LedgerState) :
    Option LedgerState :=
  match buscar_saldo_para_retorno nf.destinatario_cnpj item.codigo_produto item.numero_lote
      ls.saldos with
  | some _ => none
  | none =>
      some { ls with log :=
          ls.log ++ [⟨"retorno", nf.destinatario_cnpj, item.codigo_produto, item.numero_lote⟩] }

/-- `SaldoService._processar_retorno_simbolico`: same shape as the return
operation; the matched row's `quantidade_utilizada` is a loaded
`decimal.Decimal`, so `+=` of the float quantity raises `TypeError`
(`none`); with no match, only a warning is logged. -/
def processar_retorno_simbolico (nf : NFData) (item : ItemData) (ls : LedgerState) :
    Option LedgerState :=
  match buscar_saldo_para_retorno nf.destinatario_cnpj item.codigo_produto item.numero_lote
      ls.saldos with
  | some _ => none
  | none =>
      some { ls with log :=
          ls.log ++
            [⟨"retorno simbolico", nf.destinatario_cnpj, item.codigo_produto, item.numero_lote⟩] }

/-- `SaldoService._processar_faturamento`: same shape as the return
operation; the matched row's `quantidade_faturada` is a loaded
`decimal.Decimal`, so `+=` of the float quantity raises `TypeError`
(`none`); with no match, only a warning is logged. -/
def processar_faturamento (nf : NFData) (item : ItemData) (ls : LedgerState) :
    Option LedgerState :=
  match buscar_saldo_para_retorno nf.destinatario_cnpj item.codigo_produto item.numero_lote
      ls.saldos with
  | some _ => none
  | none =>
      some { ls with log :=
          ls.log ++ [⟨"faturamento", nf.destinatario_cnpj, item.codigo_produto, item.numero_lote⟩] }

/-- `SaldoService._atualizar_saldo`: dispatch on the classified operation
kind; any other kind (including `outros`) changes nothing.  `none`
propagates a `TypeError` raised by a counter update. -/
def atualizar_saldo (sessionStart : ℕ) (nf : NFData) (item : ItemData) (ls : LedgerState) :
    Option LedgerState :=
  if nf.tipo_operacao == "saida" then processar_saida_consignacao sessionStart nf item ls
  else if nf.tipo_operacao == "retorno" then processar_retorno_consignacao nf item ls
  else if nf.tipo_operacao == "simbolico" then processar_retorno_simbolico nf item ls
  else if nf.tipo_operacao == "faturamento" then processar_faturamento nf item ls
  else some ls

/-- Result of `SaldoService.validar_operacao`, tagged by return site with
the values the source interpolates into each message. -/
inductive ValidationResult where
  | valid
  | invalidNoSaldo (produto : String) (lote : Option String) (cliente : String)
  | invalidInsufficient (disponivel : ℚ) (solicitado : ℚ)
deriving DecidableEq

/-- `SaldoService.validar_operacao`: the explicit pre-flight check.  A
pure read — it runs the same matching lookup and compares the matched
row's `saldo_disponivel` with the requested quantity. -/
def validar_operacao (nf : NFData) (item : ItemData) (saldos : List SaldoMaterial) :
    ValidationResult :=
  if nf.tipo_operacao == "retorno" || nf.tipo_operacao == "simbolico" ||
      nf.tipo_operacao == "faturamento" then
    match buscar_saldo_para_retorno nf.destinatario_cnpj item.codigo_produto item.numero_lote
        saldos with
    | none => .invalidNoSaldo item.codigo_produto item.numero_lote nf.destinatario_cnpj
    | some (_, s) =>
        if s.saldo_disponivel < item.quantidade then
          .invalidInsufficient s.saldo_disponivel item.quantidade
        else .valid
  else .valid

/-- One `notas_fiscais` row. -/
structure NotaRow where
  id : ℕ
  numero : Option String
  serie : Option String
  chave_acesso : String
  data_emissao : Option String
  cfop : String
  tipo_operacao : String
  destinatario_cnpj : String
  destinatario_nome : String
deriving DecidableEq

/-- One `itens_nota_fiscal` row. -/
structure ItemRow where
  nota_fiscal_id : ℕ
  item : ItemData
deriving DecidableEq

/-- Full persistent state seen by `SaldoService.processar_nota_fiscal`. -/
structure DBState where
  notas : List NotaRow
  itens : List ItemRow
  ledger : LedgerState
  nextNotaId : ℕ
deriving DecidableEq

/-- Result of `SaldoService.processar_nota_fiscal`, tagged by return
site: success (with id, operation kind and processed-line count), the
structural-validation failure, the duplicate rejection, and the
`except`-branch internal failure. -/
inductive ProcResult where
  | success (nota_fiscal_id : ℕ) (tipo_operacao : String) (itens_processados : ℕ)
  | invalidXml (error : String)
  | duplicate (numero : Option String) (serie : Option String)
  | internalError
deriving DecidableEq

/-- The `NotaFiscal(...)` constructor call of `processar_nota_fiscal`. -/
def notaRowOf (nf : NFData) (id : ℕ) : NotaRow :=
  { id := id
    numero := nf.numero
    serie := nf.serie
    chave_acesso := nf.chave_acesso
    data_emissao := nf.data_emissao
    cfop := nf.cfop
    tipo_operacao := nf.tipo_operacao
    destinatario_cnpj := nf.destinatario_cnpj
    destinatario_nome := nf.destinatario_nome }

/-- Loop body of `processar_nota_fiscal` for one line item: persist the
`ItemNotaFiscal` row and, when the item carries a truthy lot number,
apply the ledger transition and count the item as processed.  `ss` is
the ledger creation counter at the start of the call (marking which
balance rows are session-fresh Python objects rather than loaded
`Decimal` rows); a `none` from `atualizar_saldo` is a raised `TypeError`
and aborts the whole fold. -/
def processar_item (ss notaId : ℕ) (nf : NFData) (acc : Option (DBState × ℕ))
    (item : ItemData) : Option (DBState × ℕ) :=
  match acc with
  | none => none
  | some (st0, c) =>
      let st := { st0 with itens := st0.itens ++ [{ nota_fiscal_id := notaId, item := item }] }
      if pyTruthy item.numero_lote then
        match atualizar_saldo ss nf item st.ledger with
        | some lg => some ({ st with ledger := lg }, c + 1)
        | none => none
      else some (st, c)

/-- `SaldoService.processar_nota_fiscal` on the namespace-stripped tree:
validate, parse, duplicate-check, persist the invoice and its lines, and
reconcile each lot-bearing line, as one atomic unit.  `internalError`
models the `except` branch after `db.session.rollback()`, so the
pre-call state is returned unchanged there.  It is reachable from a
parse `ValueError`, from the NOT NULL flush failure when the emission
date is falsy or unparsable (the model conservatively keeps only dates
the source's `fromisoformat`/`strptime` surely accepts, see
`parsesAsDate`), and from a `TypeError` raised by a `Decimal += float`
counter update inside the item loop. -/
def processar_nota_fiscal (root : XElem) (st : DBState) : ProcResult × DBState :=
  match validate_xml_structure root with
  | (false, msg) => (.invalidXml msg, st)
  | (true, _) =>
      match parse_xml root with
      | none => (.internalError, st)
      | some nf =>
          if st.notas.any (fun n => n.chave_acesso == nf.chave_acesso) then
            (.duplicate nf.numero nf.serie, st)
          else
            match nf.data_emissao with
            | none => (.internalError, st)
            | some _ =>
                let notaId := st.nextNotaId
                let ss := st.ledger.clock
                let st1 :=
                  { st with
                      notas := st.notas ++ [notaRowOf nf notaId]
                      nextNotaId := notaId + 1 }
                match nf.itens.foldl (processar_item ss notaId nf) (some (st1, 0)) with
                | some (st2, cnt) => (.success notaId nf.tipo_operacao cnt, st2)
                | none => (.internalError, st)

/-! Helper lemmas about the binary64 rounding model. -/

/-- Integers are fixed points of half-even rounding. -/
theorem roundHalfEven_intCast (n : ℤ) : roundHalfEven (n : ℚ) = n := by
  simp [roundHalfEven]

/-- Zero is preserved by binary64 rounding. -/
theorem roundDouble_zero : roundDouble 0 = 0 := by
  simp [roundDouble]

/-- Dyadic rationals with a significand below `2 ^ 53` are exactly
representable in binary64, so rounding preserves them. -/
theorem roundDouble_dyadic (m k : ℤ) (hm : |m| < 2 ^ 53) :
    roundDouble ((m : ℚ) * 2 ^ k) = (m : ℚ) * 2 ^ k := by
  rcases eq_or_ne m 0 with rfl | hm0
  · simp [roundDouble]
  · have h2ne : (2 : ℚ) ≠ 0 := by norm_num
    have hzk : (0 : ℚ) < 2 ^ k := zpow_pos (by norm_num) k
    have hmQ : ((m : ℚ)) ≠ 0 := Int.cast_ne_zero.mpr hm0
    have hq0 : (m : ℚ) * 2 ^ k ≠ 0 := mul_ne_zero hmQ (ne_of_gt hzk)
    have habs : |(m : ℚ) * 2 ^ k| = ((|m| : ℤ) : ℚ) * 2 ^ k := by
      rw [abs_mul, abs_of_pos hzk, Int.cast_abs]
    have habspos : (0 : ℚ) < ((|m| : ℤ) : ℚ) * 2 ^ k := by
      apply mul_pos _ hzk
      exact_mod_cast abs_pos.mpr hm0
    rw [roundDouble, if_neg hq0, habs]
    set e : ℤ := Int.log 2 (((|m| : ℤ) : ℚ) * 2 ^ k) with he
    have hlt : ((|m| : ℤ) : ℚ) * 2 ^ k < 2 ^ (k + 53) := by
      have hmlt : ((|m| : ℤ) : ℚ) < 2 ^ (53 : ℕ) := by exact_mod_cast hm
      calc ((|m| : ℤ) : ℚ) * 2 ^ k < 2 ^ (53 : ℕ) * 2 ^ k :=
            mul_lt_mul_of_pos_right hmlt hzk
        _ = 2 ^ (k + 53) := by
            rw [← zpow_natCast (2 : ℚ) 53, ← zpow_add₀ h2ne]
            norm_num [add_comm]
    have helt : e < k + 53 := by
      rw [he]
      exact (Int.lt_zpow_iff_log_lt (by norm_num) habspos).mp hlt
    have hd : 0 ≤ k + 52 - e := by omega
    have hexp : (2 : ℚ) ^ ((k + 52 - e).toNat) = 2 ^ (k + 52 - e) := by
      rw [← zpow_natCast (2 : ℚ), Int.toNat_of_nonneg hd]
    have hset : ((|m| : ℤ) : ℚ) * 2 ^ k * 2 ^ (52 - e) =
        ((|m| * 2 ^ (k + 52 - e).toNat : ℤ) : ℚ) := by
      push_cast
      rw [hexp, mul_assoc, ← zpow_add₀ h2ne]
      congr 2
      ring
    rw [hset, roundHalfEven_intCast]
    have hsign : (if (m : ℚ) * 2 ^ k < 0 then (-1 : ℚ) else 1) * ((|m| : ℤ) : ℚ) = (m : ℚ) := by
      rcases lt_or_gt_of_ne hm0 with hneg | hpos
      · rw [if_pos (mul_neg_of_neg_of_pos (by exact_mod_cast hneg : (m : ℚ) < 0) hzk),
          abs_of_neg hneg]
        push_cast
        ring
      · rw [if_neg (not_lt.mpr (le_of_lt (mul_pos (by exact_mod_cast hpos) hzk))),
          abs_of_pos hpos]
        ring
    have h2c : (2 : ℚ) ^ (k + 52 - e) * 2 ^ (e - 52) = 2 ^ k := by
      rw [← zpow_add₀ h2ne]
      congr 1
      ring
    calc (if (m : ℚ) * 2 ^ k < 0 then (-1 : ℚ) else 1) *
          ((|m| * 2 ^ (k + 52 - e).toNat : ℤ) : ℚ) * 2 ^ (e - 52)
        = ((if (m : ℚ) * 2 ^ k < 0 then (-1 : ℚ) else 1) * ((|m| : ℤ) : ℚ)) *
            ((2 : ℚ) ^ (k + 52 - e) * 2 ^ (e - 52)) := by
          push_cast [hexp]
          ring
      _ = (m : ℚ) * 2 ^ k := by rw [hsign, h2c]

/-- Integers of magnitude below `2 ^ 53` are preserved by binary64
rounding. -/
theorem roundDouble_intCast (n : ℤ) (h : |n| < 2 ^ 53) : roundDouble (n : ℚ) = n := by
  have hd := roundDouble_dyadic n 0 h
  simpa using hd

/-- `1/10` lies in `[2 ^ (-4), 2 ^ (-3))`. -/
theorem log_tenth : Int.log 2 (1 / 10 : ℚ) = -4 := by
  have hpos : (0 : ℚ) < 1 / 10 := by norm_num
  have h1 : ((2 : ℚ)) ^ (-4 : ℤ) ≤ 1 / 10 := by norm_num
  have h2 : (1 / 10 : ℚ) < 2 ^ (-3 : ℤ) := by norm_num
  have hle : (-4 : ℤ) ≤ Int.log 2 (1 / 10 : ℚ) :=
    (Int.zpow_le_iff_le_log (by norm_num) hpos).mp h1
  have hlt : Int.log 2 (1 / 10 : ℚ) < -3 :=
    (Int.lt_zpow_iff_log_lt (by norm_num) hpos).mp h2
  omega

/-- The binary64 value nearest to the exact decimal `0.1`: it is not
`1/10` but `3602879701896397 / 2 ^ 55`. -/
theorem roundDouble_tenth : roundDouble (1 / 10 : ℚ) = 3602879701896397 / 2 ^ 55 := by
  have hpos : (0 : ℚ) < 1 / 10 := by norm_num
  have hne : (1 / 10 : ℚ) ≠ 0 := by norm_num
  have habs : |(1 / 10 : ℚ)| = 1 / 10 := abs_of_pos hpos
  rw [roundDouble, if_neg hne, habs, log_tenth, if_neg (not_lt.mpr (le_of_lt hpos))]
  have harg : (1 / 10 : ℚ) * 2 ^ ((52 : ℤ) - (-4)) = 36028797018963968 / 5 := by
    rw [show ((52 : ℤ) - (-4)) = ((56 : ℕ) : ℤ) from rfl, zpow_natCast]
    norm_num
  rw [harg]
  have hfl : ⌊(36028797018963968 : ℚ) / 5⌋ = 7205759403792793 := by
    rw [Int.floor_eq_iff]
    constructor <;> norm_num
  have hrhe : roundHalfEven ((36028797018963968 : ℚ) / 5) = 7205759403792794 := by
    rw [roundHalfEven, hfl]
    norm_num
  rw [hrhe]
  rw [show ((-4 : ℤ) - 52) = -((56 : ℕ) : ℤ) from rfl, zpow_neg, zpow_natCast]
  norm_num

/-- Half-even rounding never goes below the floor. -/
theorem roundHalfEven_ge_floor (y : ℚ) : ⌊y⌋ ≤ roundHalfEven y := by
  unfold roundHalfEven
  split_ifs <;> omega

/-- Half-even rounding never exceeds the floor plus one. -/
theorem roundHalfEven_le_floor_add_one (y : ℚ) : roundHalfEven y ≤ ⌊y⌋ + 1 := by
  unfold roundHalfEven
  split_ifs <;> omega

/-- Half-even rounding is monotone. -/
theorem roundHalfEven_mono {x y : ℚ} (h : x ≤ y) : roundHalfEven x ≤ roundHalfEven y := by
  have hf : ⌊x⌋ ≤ ⌊y⌋ := Int.floor_le_floor h
  rcases lt_or_eq_of_le hf with hlt | heq
  · calc roundHalfEven x ≤ ⌊x⌋ + 1 := roundHalfEven_le_floor_add_one x
      _ ≤ ⌊y⌋ := by omega
      _ ≤ roundHalfEven y := roundHalfEven_ge_floor y
  · unfold roundHalfEven
    rw [← heq]
    split_ifs <;> first | omega | (exfalso; linarith)

/-- For positive `q`, binary64 rounding is bounded below by `2 ^ log₂ q`. -/
theorem zpow_log_le_roundDouble {q : ℚ} (hq : 0 < q) :
    (2 : ℚ) ^ (Int.log 2 q) ≤ roundDouble q := by
  have h2ne : (2 : ℚ) ≠ 0 := by norm_num
  rw [roundDouble, if_neg (ne_of_gt hq), abs_of_pos hq,
    if_neg (not_lt.mpr (le_of_lt hq)), one_mul]
  set e : ℤ := Int.log 2 q with he
  have hylb : (2 : ℚ) ^ e ≤ q := Int.zpow_log_le_self (by norm_num) hq
  have hzlb : (2 : ℚ) ^ (52 : ℤ) ≤ q * 2 ^ (52 - e) := by
    calc (2 : ℚ) ^ (52 : ℤ) = 2 ^ e * 2 ^ (52 - e) := by
          rw [← zpow_add₀ h2ne]
          congr 1
          ring
      _ ≤ q * 2 ^ (52 - e) :=
          mul_le_mul_of_nonneg_right hylb (le_of_lt (zpow_pos (by norm_num) _))
  have hcast : ((2 ^ 52 : ℤ) : ℚ) = (2 : ℚ) ^ (52 : ℤ) := by
    rw [show ((52 : ℤ)) = ((52 : ℕ) : ℤ) from rfl, zpow_natCast]
    push_cast
    ring
  have hfl : (2 ^ 52 : ℤ) ≤ roundHalfEven (q * 2 ^ (52 - e)) := by
    refine le_trans (Int.le_floor.mpr ?_) (roundHalfEven_ge_floor _)
    rw [hcast]
    exact hzlb
  calc (2 : ℚ) ^ e = (2 : ℚ) ^ (52 : ℤ) * 2 ^ (e - 52) := by
        rw [← zpow_add₀ h2ne]
        congr 1
        ring
    _ ≤ ((roundHalfEven (q * 2 ^ (52 - e)) : ℤ) : ℚ) * 2 ^ (e - 52) := by
        apply mul_le_mul_of_nonneg_right _ (le_of_lt (zpow_pos (by norm_num) _))
        rw [← hcast]
        exact_mod_cast hfl

/-- For positive `q`, binary64 rounding is bounded above by
`2 ^ (log₂ q + 1)`. -/
theorem roundDouble_le_zpow_succ_log {q : ℚ} (hq : 0 < q) :
    roundDouble q ≤ (2 : ℚ) ^ (Int.log 2 q + 1) := by
  have h2ne : (2 : ℚ) ≠ 0 := by norm_num
  rw [roundDouble, if_neg (ne_of_gt hq), abs_of_pos hq,
    if_neg (not_lt.mpr (le_of_lt hq)), one_mul]
  set e : ℤ := Int.log 2 q with he
  have hyub : q < (2 : ℚ) ^ (e + 1) := Int.lt_zpow_succ_log_self (by norm_num) q
  have hzub : q * 2 ^ (52 - e) < (2 : ℚ) ^ (53 : ℤ) := by
    calc q * 2 ^ (52 - e) < 2 ^ (e + 1) * 2 ^ (52 - e) :=
          mul_lt_mul_of_pos_right hyub (zpow_pos (by norm_num) _)
      _ = (2 : ℚ) ^ (53 : ℤ) := by
          rw [← zpow_add₀ h2ne]
          congr 1
          ring
  have hcast : ((2 ^ 53 : ℤ) : ℚ) = (2 : ℚ) ^ (53 : ℤ) := by
    rw [show ((53 : ℤ)) = ((53 : ℕ) : ℤ) from rfl, zpow_natCast]
    push_cast
    ring
  have hfl : roundHalfEven (q * 2 ^ (52 - e)) ≤ 2 ^ 53 := by
    have hflt : ⌊q * 2 ^ (52 - e)⌋ < 2 ^ 53 := by
      rw [Int.floor_lt, hcast]
      exact hzub
    have hle := roundHalfEven_le_floor_add_one (q * 2 ^ (52 - e))
    omega
  calc ((roundHalfEven (q * 2 ^ (52 - e)) : ℤ) : ℚ) * 2 ^ (e - 52)
      ≤ (2 : ℚ) ^ (53 : ℤ) * 2 ^ (e - 52) := by
        apply mul_le_mul_of_nonneg_right _ (le_of_lt (zpow_pos (by norm_num) _))
        rw [← hcast]
        exact_mod_cast hfl
    _ = (2 : ℚ) ^ (e + 1) := by
        rw [← zpow_add₀ h2ne]
        congr 1
        ring

/-- Binary64 rounding of a positive value is positive. -/
theorem roundDouble_pos {q : ℚ} (hq : 0 < q) : 0 < roundDouble q :=
  lt_of_lt_of_le (zpow_pos (by norm_num) _) (zpow_log_le_roundDouble hq)

/-- Binary64 rounding commutes with negation. -/
theorem roundDouble_neg (q : ℚ) : roundDouble (-q) = -roundDouble q := by
  rcases lt_trichotomy q 0 with hneg | rfl | hpos
  · unfold roundDouble
    rw [if_neg (ne_of_gt (neg_pos.mpr hneg)), if_neg (ne_of_lt hneg),
      if_neg (not_lt.mpr (le_of_lt (neg_pos.mpr hneg))), if_pos hneg, abs_neg]
    ring
  · simp [roundDouble]
  · unfold roundDouble
    rw [if_neg (ne_of_lt (neg_lt_zero.mpr hpos)), if_neg (ne_of_gt hpos),
      if_pos (neg_lt_zero.mpr hpos), if_neg (not_lt.mpr (le_of_lt hpos)), abs_neg]
    ring

/-- Binary64 rounding is monotone on positive values. -/
theorem roundDouble_pos_mono {x y : ℚ} (hx : 0 < x) (hxy : x ≤ y) :
    roundDouble x ≤ roundDouble y := by
  have hy : 0 < y := lt_of_lt_of_le hx hxy
  have hle : Int.log 2 x ≤ Int.log 2 y := Int.log_mono_right hx hxy
  rcases lt_or_eq_of_le hle with hlt | heq
  · calc roundDouble x ≤ (2 : ℚ) ^ (Int.log 2 x + 1) := roundDouble_le_zpow_succ_log hx
      _ ≤ (2 : ℚ) ^ (Int.log 2 y) := by
          apply zpow_le_zpow_right₀ (by norm_num)
          omega
      _ ≤ roundDouble y := zpow_log_le_roundDouble hy
  · unfold roundDouble
    rw [if_neg (ne_of_gt hx), abs_of_pos hx, if_neg (not_lt.mpr (le_of_lt hx)),
      if_neg (ne_of_gt hy), abs_of_pos hy, if_neg (not_lt.mpr (le_of_lt hy)),
      one_mul, one_mul, ← heq]
    apply mul_le_mul_of_nonneg_right _ (le_of_lt (zpow_pos (by norm_num) _))
    have harg : x * 2 ^ ((52 : ℤ) - Int.log 2 x) ≤ y * 2 ^ ((52 : ℤ) - Int.log 2 x) :=
      mul_le_mul_of_nonneg_right hxy (le_of_lt (zpow_pos (by norm_num) _))
    exact_mod_cast roundHalfEven_mono harg

/-- Binary64 rounding is monotone. -/
theorem roundDouble_mono {x y : ℚ} (h : x ≤ y) : roundDouble x ≤ roundDouble y := by
  have hnegx : roundDouble x = -roundDouble (-x) := by rw [roundDouble_neg]; ring
  have hnegy : roundDouble y = -roundDouble (-y) := by rw [roundDouble_neg]; ring
  rcases lt_trichotomy x 0 with hxneg | rfl | hxpos
  · rcases lt_trichotomy y 0 with hyneg | rfl | hypos
    · rw [hnegx, hnegy]
      exact neg_le_neg (roundDouble_pos_mono (neg_pos.mpr hyneg) (neg_le_neg h))
    · rw [roundDouble_zero, hnegx]
      have := roundDouble_pos (neg_pos.mpr hxneg)
      linarith
    · rw [hnegx]
      have h1 := roundDouble_pos (neg_pos.mpr hxneg)
      have h2 := roundDouble_pos hypos
      linarith
  · rcases eq_or_lt_of_le h with rfl | hypos
    · exact le_refl _
    · rw [roundDouble_zero]
      exact le_of_lt (roundDouble_pos hypos)
  · exact roundDouble_pos_mono hxpos h

/-- A representable counter does not decrease under float addition of a
nonnegative quantity. -/
theorem le_fadd_of_fixed {a b : ℚ} (ha : roundDouble a = a) (hb : 0 ≤ b) :
    a ≤ fadd a b := by
  calc a = roundDouble a := ha.symm
    _ ≤ roundDouble (a + b) := roundDouble_mono (by linarith)
    _ = fadd a b := rfl

/-- The float addition `5.0 + 10.0` is exact. -/
theorem fadd_five_ten : fadd (5 : ℚ) 10 = 15 := by
  have h : ((5 : ℚ) + 10) = ((15 : ℤ) : ℚ) := by norm_num
  rw [fadd, h, roundDouble_intCast 15 (by norm_num)]
  norm_num

/-- The float addition `5.0 + (-1.0)` is exact. -/
theorem fadd_five_neg_one : fadd (5 : ℚ) (-1) = 4 := by
  have h : ((5 : ℚ) + -1) = ((4 : ℤ) : ℚ) := by norm_num
  rw [fadd, h, roundDouble_intCast 4 (by norm_num)]
  norm_num

/-! Helper lemmas about positional enumeration and list updates. -/

/-- Membership in `enumSaldos` is positional lookup. -/
theorem mem_enumSaldos {l : List SaldoMaterial} {n i : ℕ} {s : SaldoMaterial} :
    (i, s) ∈ enumSaldos n l ↔ ∃ j, i = n + j ∧ l[j]? = some s := by
  induction l generalizing n with
  | nil => simp [enumSaldos]
  | cons x xs ih =>
      simp only [enumSaldos, List.mem_cons, ih, Prod.mk.injEq]
      constructor
      · rintro (⟨rfl, rfl⟩ | ⟨j, rfl, hj⟩)
        · exact ⟨0, by omega, by simp⟩
        · exact ⟨j + 1, by omega, by simpa using hj⟩
      · rintro ⟨j, hij, hj⟩
        cases j with
        | zero =>
            left
            simp only [List.getElem?_cons_zero, Option.some.injEq] at hj
            exact ⟨by omega, hj.symm⟩
        | succ j' =>
            right
            exact ⟨j', by omega, by simpa using hj⟩

/-- List membership as enumeration membership. -/
theorem mem_iff_enumSaldos {l : List SaldoMaterial} {s : SaldoMaterial} :
    s ∈ l ↔ ∃ i, (i, s) ∈ enumSaldos 0 l := by
  rw [List.mem_iff_getElem?]
  constructor
  · rintro ⟨j, hj⟩
    exact ⟨j, mem_enumSaldos.mpr ⟨j, by omega, hj⟩⟩
  · rintro ⟨i, hi⟩
    rcases mem_enumSaldos.mp hi with ⟨j, rfl, hj⟩
    exact ⟨j, hj⟩

/-- Writing back the element looked up at a position leaves the list
unchanged. -/
theorem set_self {α : Type*} {l : List α} {i : ℕ} {a : α} (h : l[i]? = some a) :
    l.set i a = l := by
  induction l generalizing i with
  | nil => simp at h
  | cons x xs ih =>
      cases i with
      | zero => simp_all
      | succ n =>
          simp only [List.getElem?_cons_succ] at h
          simp [ih h]

/-! Helper lemmas about the ledger operations and the item loop. -/

/-- A return that completes without raising leaves the balance table
unchanged (on a match it raises instead; otherwise it only logs). -/
theorem retorno_some_saldos {nf : NFData} {item : ItemData} {ls ls' : LedgerState}
    (h : processar_retorno_consignacao nf item ls = some ls') :
    ls'.saldos = ls.saldos := by
  unfold processar_retorno_consignacao at h
  cases hb : buscar_saldo_para_retorno nf.destinatario_cnpj item.codigo_produto
      item.numero_lote ls.saldos with
  | none =>
      simp only [hb, Option.some.injEq] at h
      rw [← h]
  | some p => simp [hb] at h

/-- A symbolic return that completes without raising leaves the balance
table unchanged. -/
theorem simbolico_some_saldos {nf : NFData} {item : ItemData} {ls ls' : LedgerState}
    (h : processar_retorno_simbolico nf item ls = some ls') :
    ls'.saldos = ls.saldos := by
  unfold processar_retorno_simbolico at h
  cases hb : buscar_saldo_para_retorno nf.destinatario_cnpj item.codigo_produto
      item.numero_lote ls.saldos with
  | none =>
      simp only [hb, Option.some.injEq] at h
      rw [← h]
  | some p => simp [hb] at h

/-- A billing that completes without raising leaves the balance table
unchanged. -/
theorem faturamento_some_saldos {nf : NFData} {item : ItemData} {ls ls' : LedgerState}
    (h : processar_faturamento nf item ls = some ls') :
    ls'.saldos = ls.saldos := by
  unfold processar_faturamento at h
  cases hb : buscar_saldo_para_retorno nf.destinatario_cnpj item.codigo_produto
      item.numero_lote ls.saldos with
  | none =>
      simp only [hb, Option.some.injEq] at h
      rw [← h]
  | some p => simp [hb] at h

/-- A non-shipment ledger operation that completes without raising leaves
the balance table unchanged: no record is created, removed or mutated. -/
theorem atualizar_nao_saida_saldos (ss : ℕ) (nf : NFData) (item : ItemData)
    (ls ls' : LedgerState) (hne : nf.tipo_operacao ≠ "saida")
    (h : atualizar_saldo ss nf item ls = some ls') : ls'.saldos = ls.saldos := by
  unfold atualizar_saldo at h
  have h0 : (nf.tipo_operacao == "saida") = false := by simp [hne]
  rw [h0] at h
  simp only [Bool.false_eq_true, if_false] at h
  cases hr : (nf.tipo_operacao == "retorno") with
  | true =>
      rw [hr] at h
      simp only [if_true] at h
      exact retorno_some_saldos h
  | false =>
      rw [hr] at h
      simp only [Bool.false_eq_true, if_false] at h
      cases hsim : (nf.tipo_operacao == "simbolico") with
      | true =>
          rw [hsim] at h
          simp only [if_true] at h
          exact simbolico_some_saldos h
      | false =>
          rw [hsim] at h
          simp only [Bool.false_eq_true, if_false] at h
          cases hft : (nf.tipo_operacao == "faturamento") with
          | true =>
              rw [hft] at h
              simp only [if_true] at h
              exact faturamento_some_saldos h
          | false =>
              rw [hft] at h
              simp only [Bool.false_eq_true, if_false, Option.some.injEq] at h
              rw [← h]

/-- A matched return line raises `TypeError` (`Decimal += float`). -/
theorem atualizar_retorno_matched (ss : ℕ) (nf : NFData) (item : ItemData)
    (ls : LedgerState) (p : ℕ × SaldoMaterial)
    (ht : nf.tipo_operacao = "retorno")
    (hb : buscar_saldo_para_retorno nf.destinatario_cnpj item.codigo_produto
      item.numero_lote ls.saldos = some p) :
    atualizar_saldo ss nf item ls = none := by
  unfold atualizar_saldo
  have h0 : (nf.tipo_operacao == "saida") = false := by simp [ht]
  have h1 : (nf.tipo_operacao == "retorno") = true := by simp [ht]
  rw [h0, h1]
  simp only [Bool.false_eq_true, if_false, if_true]
  unfold processar_retorno_consignacao
  rw [hb]

/-- An unmatched non-shipment line only appends a warning to the log. -/
theorem atualizar_nao_saida_sem_match (ss : ℕ) (nf : NFData) (item : ItemData)
    (ls : LedgerState)
    (htipo : nf.tipo_operacao = "retorno" ∨ nf.tipo_operacao = "simbolico" ∨
      nf.tipo_operacao = "faturamento")
    (hnm : buscar_saldo_para_retorno nf.destinatario_cnpj item.codigo_produto
      item.numero_lote ls.saldos = none) :
    ∃ w : Warning, atualizar_saldo ss nf item ls = some { ls with log := ls.log ++ [w] } := by
  unfold atualizar_saldo
  rcases htipo with ht | ht | ht
  · have h0 : (nf.tipo_operacao == "saida") = false := by simp [ht]
    have h1 : (nf.tipo_operacao == "retorno") = true := by simp [ht]
    rw [h0, h1]
    simp only [Bool.false_eq_true, if_false, if_true]
    unfold processar_retorno_consignacao
    rw [hnm]
    exact ⟨⟨"retorno", nf.destinatario_cnpj, item.codigo_produto, item.numero_lote⟩, rfl⟩
  · have h0 : (nf.tipo_operacao == "saida") = false := by simp [ht]
    have h1 : (nf.tipo_operacao == "retorno") = false := by simp [ht]
    have h2 : (nf.tipo_operacao == "simbolico") = true := by simp [ht]
    rw [h0, h1, h2]
    simp only [Bool.false_eq_true, if_false, if_true]
    unfold processar_retorno_simbolico
    rw [hnm]
    exact ⟨⟨"retorno simbolico", nf.destinatario_cnpj, item.codigo_produto,
      item.numero_lote⟩, rfl⟩
  · have h0 : (nf.tipo_operacao == "saida") = false := by simp [ht]
    have h1 : (nf.tipo_operacao == "retorno") = false := by simp [ht]
    have h2 : (nf.tipo_operacao == "simbolico") = false := by simp [ht]
    have h3 : (nf.tipo_operacao == "faturamento") = true := by simp [ht]
    rw [h0, h1, h2, h3]
    simp only [Bool.false_eq_true, if_false, if_true]
    unfold processar_faturamento
    rw [hnm]
    exact ⟨⟨"faturamento", nf.destinatario_cnpj, item.codigo_produto,
      item.numero_lote⟩, rfl⟩

/-- A truthy-lot line whose ledger operation raises aborts the loop. -/
theorem processar_item_matched_none (ss nid : ℕ) (nf : NFData) (item : ItemData)
    (st : DBState) (c : ℕ)
    (htr : pyTruthy item.numero_lote = true)
    (ha : atualizar_saldo ss nf item st.ledger = none) :
    processar_item ss nid nf (some (st, c)) item = none := by
  simp [processar_item, htr, ha]

/-- A raised `TypeError` aborts the rest of the item loop. -/
theorem fold_item_none (ss nid : ℕ) (nf : NFData) (items : List ItemData) :
    items.foldl (processar_item ss nid nf) none = none := by
  induction items with
  | nil => rfl
  | cons it rest ih => simpa [processar_item] using ih

/-- Anatomy of a successful item loop: the invoice table and the id
counter are untouched, exactly one line row is appended per line, and the
count rises by the number of truthy-lot lines. -/
theorem fold_processar_item_some (ss nid : ℕ) (nf : NFData) (items : List ItemData) :
    ∀ (st : DBState) (c : ℕ) (st' : DBState) (c' : ℕ),
    items.foldl (processar_item ss nid nf) (some (st, c)) = some (st', c') →
    st'.notas = st.notas ∧ st'.nextNotaId = st.nextNotaId ∧
    st'.itens = st.itens ++ items.map (fun it => { nota_fiscal_id := nid, item := it }) ∧
    c' = c + (items.filter fun it => pyTruthy it.numero_lote).length := by
  induction items with
  | nil =>
      intro st c st' c' h
      simp only [List.foldl_nil, Option.some.injEq, Prod.mk.injEq] at h
      obtain ⟨h1, h2⟩ := h
      subst h1
      subst h2
      simp
  | cons it rest ih =>
      intro st c st' c' h
      rw [List.foldl_cons] at h
      cases htr : pyTruthy it.numero_lote with
      | false =>
          rw [show processar_item ss nid nf (some (st, c)) it =
              some ({ st with itens :=
                st.itens ++ [({ nota_fiscal_id := nid, item := it } : ItemRow)] }, c) from by
            simp [processar_item, htr]] at h
          rcases ih _ _ _ _ h with ⟨h1, h2, h3, h4⟩
          refine ⟨by simpa using h1, by simpa using h2, ?_, ?_⟩
          · rw [h3]
            simp
          · rw [h4]
            simp [List.filter_cons, htr]
      | true =>
          rcases ha : atualizar_saldo ss nf it st.ledger with _ | lg
          · rw [show processar_item ss nid nf (some (st, c)) it = none from by
              simp [processar_item, htr, ha]] at h
            rw [fold_item_none] at h
            exact absurd h (by simp)
          · rw [show processar_item ss nid nf (some (st, c)) it =
                some ({ st with
                  itens := st.itens ++ [({ nota_fiscal_id := nid, item := it } : ItemRow)]
                  ledger := lg }, c + 1) from by
              simp [processar_item, htr, ha]] at h
            rcases ih _ _ _ _ h with ⟨h1, h2, h3, h4⟩
            refine ⟨by simpa using h1, by simpa using h2, ?_, ?_⟩
            · rw [h3]
              simp
            · rw [h4]
              simp only [List.filter_cons, htr, if_true, List.length_cons]
              omega

/-- When every lot-bearing line of a non-shipment invoice is unmatched,
the item loop succeeds: each such line only appends a warning, the
balance table is untouched, and the count is the number of truthy-lot
lines. -/
theorem fold_nao_saida_sem_match (ss nid : ℕ) (nf : NFData) (items : List ItemData)
    (htipo : nf.tipo_operacao = "retorno" ∨ nf.tipo_operacao = "simbolico" ∨
      nf.tipo_operacao = "faturamento") :
    ∀ (st : DBState) (c : ℕ),
    (∀ it ∈ items, pyTruthy it.numero_lote = true →
      buscar_saldo_para_retorno nf.destinatario_cnpj it.codigo_produto it.numero_lote
        st.ledger.saldos = none) →
    ∃ st', items.foldl (processar_item ss nid nf) (some (st, c)) =
        some (st', c + (items.filter fun it => pyTruthy it.numero_lote).length) ∧
      st'.notas = st.notas ∧ st'.nextNotaId = st.nextNotaId ∧
      st'.itens = st.itens ++ items.map (fun it => { nota_fiscal_id := nid, item := it }) ∧
      st'.ledger.saldos = st.ledger.saldos := by
  induction items with
  | nil =>
      intro st c _
      exact ⟨st, by simp, rfl, rfl, by simp, rfl⟩
  | cons it rest ih =>
      intro st c hnm
      cases htr : pyTruthy it.numero_lote with
      | false =>
          have hstep : processar_item ss nid nf (some (st, c)) it =
              some ({ st with itens :=
                st.itens ++ [({ nota_fiscal_id := nid, item := it } : ItemRow)] }, c) := by
            simp [processar_item, htr]
          rcases ih { st with itens :=
              st.itens ++ [({ nota_fiscal_id := nid, item := it } : ItemRow)] } c
              (fun it' hm ht' => hnm it' (List.mem_cons_of_mem _ hm) ht') with
            ⟨st', hfold, h1, h2, h3, h4⟩
          refine ⟨st', ?_, by simpa using h1, by simpa using h2, ?_, by simpa using h4⟩
          · rw [List.foldl_cons, hstep, hfold]
            simp only [List.filter_cons, htr, Bool.false_eq_true, if_false]
          · rw [h3]
            simp
      | true =>
          obtain ⟨w, hw⟩ := atualizar_nao_saida_sem_match ss nf it st.ledger htipo
            (hnm it (List.mem_cons_self it rest) htr)
          have hstep : processar_item ss nid nf (some (st, c)) it =
              some ({ st with
                itens := st.itens ++ [({ nota_fiscal_id := nid, item := it } : ItemRow)]
                ledger := { st.ledger with log := st.ledger.log ++ [w] } }, c + 1) := by
            simp [processar_item, htr, hw]
          rcases ih { st with
              itens := st.itens ++ [({ nota_fiscal_id := nid, item := it } : ItemRow)]
              ledger := { st.ledger with log := st.ledger.log ++ [w] } } (c + 1)
              (fun it' hm ht' => hnm it' (List.mem_cons_of_mem _ hm) ht') with
            ⟨st', hfold, h1, h2, h3, h4⟩
          refine ⟨st', ?_, by simpa using h1, by simpa using h2, ?_, by simpa using h4⟩
          · rw [List.foldl_cons, hstep, hfold]
            simp only [Option.some.injEq, Prod.mk.injEq, List.filter_cons, htr, if_true,
              List.length_cons]
            refine ⟨?_, by omega⟩
            trivial
          · rw [h3]
            simp

/-! Concrete data used by the concrete instantiations below. -/

/-- A concrete shipment invoice header. -/
def nfSaidaDemo : NFData :=
  { numero := some "101"
    serie := some "1"
    chave_acesso := "35240100000000000000550010000001011000000011"
    data_emissao := some "2024-01-05T10:00:00-03:00"
    cfop := "5917"
    tipo_operacao := "saida"
    destinatario_cnpj := "11222333000181"
    destinatario_nome := "Hospital A"
    itens := [] }

/-- A concrete return invoice header for the same counterparty. -/
def nfRetornoDemo : NFData :=
  { nfSaidaDemo with
      chave_acesso := "35240100000000000000550010000001021000000022"
      cfop := "1918"
      tipo_operacao := "retorno" }

/-- A concrete lot-bearing line item requesting quantity `10`. -/
def itemDemo : ItemData :=
  { codigo_produto := "P1"
    descricao_produto := "Parafuso pedicular"
    quantidade := 10
    valor_unitario := 0
    valor_total := 0
    numero_lote := some "L1"
    data_fabricacao := none
    data_validade := none }

/-- The older eligible balance record: shipped `5`, nothing returned or
consumed, created at time `0`. -/
def saldoDemoA : SaldoMaterial :=
  { id := 0
    cliente_cnpj := "11222333000181"
    cliente_nome := "Hospital A"
    codigo_produto := "P1"
    descricao_produto := "Parafuso pedicular"
    numero_lote := some "L1"
    nf_saida_numero := some "90"
    nf_saida_serie := some "1"
    nf_saida_chave := "35240100000000000000550010000000901000000090"
    quantidade_enviada := 5
    quantidade_retornada := 0
    quantidade_utilizada := 0
    quantidade_faturada := 0
    created_at := 0 }

/-- The newer eligible balance record for the same triple, shipped under a
different access key, created at time `1`. -/
def saldoDemoB : SaldoMaterial :=
  { saldoDemoA with
      id := 1
      nf_saida_chave := "35240100000000000000550010000000951000000095"
      quantidade_enviada := 7
      created_at := 1 }

/-- A shipment invoice header reusing the older demo record's shipment
access key (a second shipment line or invoice against the same tuple). -/
def nfSaida90 : NFData :=
  { nfSaidaDemo with chave_acesso := "35240100000000000000550010000000901000000090" }

/-- A lot-bearing line item for an unknown lot `L9`. -/
def itemL9 : ItemData := { itemDemo with numero_lote := some "L9" }

/-- Claim C10: for an invoice whose classified operation kind is neither
return, symbolic-return nor billing (shipment or the `outros` kind from an
unknown fiscal code), the pre-flight validation returns valid
unconditionally, performing no balance lookup and no quantity check. -/
theorem validar_operacao_outros_tipos (nf : NFData) (item : ItemData)
    (saldos : List SaldoMaterial)
    (h1 : nf.tipo_operacao ≠ "retorno") (h2 : nf.tipo_operacao ≠ "simbolico")
    (h3 : nf.tipo_operacao ≠ "faturamento") :
    validar_operacao nf item saldos = ValidationResult.valid := by
  unfold validar_operacao
  have hc : (nf.tipo_operacao == "retorno" || nf.tipo_operacao == "simbolico" ||
      nf.tipo_operacao == "faturamento") = false := by
    simp [h1, h2, h3]
  rw [hc]
  rfl

/-- Concrete instantiation of `validar_operacao_outros_tipos`: a shipment
invoice is validated as `valid` even against a nonempty balance table and a
large requested quantity. -/
theorem validar_operacao_outros_tipos_witness :
    validar_operacao nfSaidaDemo itemDemo [saldoDemoA, saldoDemoB] =
      ValidationResult.valid :=
  validar_operacao_outros_tipos nfSaidaDemo itemDemo [saldoDemoA, saldoDemoB]
    (by decide) (by decide) (by decide)

/-- Natural numbers below `2 ^ 53` are preserved by binary64 rounding. -/
theorem roundDouble_natCast (n : ℕ) (h : n < 2 ^ 53) : roundDouble (n : ℚ) = n := by
  have habs : |(n : ℤ)| < 2 ^ 53 := by
    rw [abs_of_nonneg (Int.ofNat_nonneg n)]
    exact_mod_cast h
  have hd := roundDouble_intCast (n : ℤ) habs
  push_cast at hd
  exact hd

/-- Binary64 rounding preserves `5`. -/
theorem roundDouble_five : roundDouble (5 : ℚ) = 5 := by
  have hd := roundDouble_natCast 5 (by norm_num)
  push_cast at hd
  exact hd

/-- The older demo record is eligible for the demo triple. -/
theorem elegivel_saldoDemoA :
    elegivel "11222333000181" "P1" (some "L1") saldoDemoA = true := by
  simp [elegivel, saldoDemoA]

/-- The newer demo record is also eligible for the demo triple. -/
theorem elegivel_saldoDemoB :
    elegivel "11222333000181" "P1" (some "L1") saldoDemoB = true := by
  simp [elegivel, saldoDemoB, saldoDemoA]

/-- On the demo table the matching lookup returns the older record,
at position `0`. -/
theorem buscar_demo :
    buscar_saldo_para_retorno "11222333000181" "P1" (some "L1") [saldoDemoA, saldoDemoB] =
      some (0, saldoDemoA) := by
  have hA := elegivel_saldoDemoA
  have hB := elegivel_saldoDemoB
  simp only [buscar_saldo_para_retorno, enumSaldos, List.filter_cons, hA, hB, if_true,
    List.filter_nil, List.argmin, List.argAux, List.foldl]
  have : saldoDemoB.created_at < saldoDemoA.created_at ↔ False := by
    simp [saldoDemoA, saldoDemoB]
  simp [this]

/-- The older demo record has available quantity `5`. -/
theorem saldo_disponivel_saldoDemoA : saldoDemoA.saldo_disponivel = 5 := by
  simp [SaldoMaterial.saldo_disponivel, saldoDemoA, fsub, roundDouble_zero, sub_zero,
    roundDouble_five]

/-- Claim C5: the pre-flight validation for return/symbolic-return/billing
runs the same matching lookup as the mutating path
(`buscar_saldo_para_retorno`) and returns: an invalid no-balance result
when the lookup finds no record with positive available quantity; an
invalid insufficient-quantity result carrying both the available and the
requested amounts when the matched record's available quantity is strictly
below the claimed quantity; and valid otherwise.  It is a pure function of
the balance table, so it mutates no state. -/
theorem validar_operacao_pre_flight (nf : NFData) (item : ItemData)
    (saldos : List SaldoMaterial)
    (h : nf.tipo_operacao = "retorno" ∨ nf.tipo_operacao = "simbolico" ∨
      nf.tipo_operacao = "faturamento") :
    (buscar_saldo_para_retorno nf.destinatario_cnpj item.codigo_produto item.numero_lote
        saldos = none →
      validar_operacao nf item saldos =
        ValidationResult.invalidNoSaldo item.codigo_produto item.numero_lote
          nf.destinatario_cnpj) ∧
    (∀ i s, buscar_saldo_para_retorno nf.destinatario_cnpj item.codigo_produto
        item.numero_lote saldos = some (i, s) →
      (s.saldo_disponivel < item.quantidade →
        validar_operacao nf item saldos =
          ValidationResult.invalidInsufficient s.saldo_disponivel item.quantidade) ∧
      (¬ s.saldo_disponivel < item.quantidade →
        validar_operacao nf item saldos = ValidationResult.valid)) := by
  have hc : (nf.tipo_operacao == "retorno" || nf.tipo_operacao == "simbolico" ||
      nf.tipo_operacao == "faturamento") = true := by
    rcases h with h | h | h <;> simp [h]
  constructor
  · intro hnone
    unfold validar_operacao
    rw [hc, hnone]
    rfl
  · intro i s hsome
    constructor
    · intro hlt
      unfold validar_operacao
      rw [hc, hsome]
      simp [hlt]
    · intro hge
      unfold validar_operacao
      rw [hc, hsome]
      simp [hge]

/-- Concrete instantiation of `validar_operacao_pre_flight`: a return of
quantity `10` against the demo table matches the older record with
available quantity `5` and is rejected with both amounts. -/
theorem validar_operacao_pre_flight_witness :
    validar_operacao nfRetornoDemo itemDemo [saldoDemoA, saldoDemoB] =
      ValidationResult.invalidInsufficient 5 10 := by
  have hbuscar : buscar_saldo_para_retorno nfRetornoDemo.destinatario_cnpj
      itemDemo.codigo_produto itemDemo.numero_lote [saldoDemoA, saldoDemoB] =
        some (0, saldoDemoA) := buscar_demo
  have hlt : saldoDemoA.saldo_disponivel < itemDemo.quantidade := by
    rw [saldo_disponivel_saldoDemoA]
    norm_num [itemDemo]
  have h := ((validar_operacao_pre_flight nfRetornoDemo itemDemo [saldoDemoA, saldoDemoB]
      (Or.inl rfl)).2 0 saldoDemoA hbuscar).1 hlt
  rw [h, saldo_disponivel_saldoDemoA]
  rfl

/-- Claim C1 [code bug]: the non-shipment lookup does implement FIFO
allocation — it returns an eligible record (matching the (counterparty,
product, lot) triple, the shipment access key not being part of the
search predicate `elegivel`, with strictly positive available quantity)
of minimal creation time, and is empty exactly when no eligible record
exists — but the looked-up record never receives the quantity: the
update `saldo.quantidade_X += item_data['quantidade']` adds a Python
float to the `decimal.Decimal` loaded from the `Numeric(15, 4)` column,
raises `TypeError`, and each of the three mutating operations fails
(`none`), rolling back the ingestion. -/
theorem buscar_retorno_fifo (cnpj produto : String) (lote : Option String)
    (saldos : List SaldoMaterial) :
    (∀ i s, buscar_saldo_para_retorno cnpj produto lote saldos = some (i, s) →
      saldos[i]? = some s ∧ elegivel cnpj produto lote s = true ∧
      ∀ t ∈ saldos, elegivel cnpj produto lote t = true →
        s.created_at ≤ t.created_at) ∧
    (buscar_saldo_para_retorno cnpj produto lote saldos = none ↔
      ∀ t ∈ saldos, elegivel cnpj produto lote t = false) ∧
    (∀ (nf : NFData) (item : ItemData) i s (ls : LedgerState),
      nf.destinatario_cnpj = cnpj → item.codigo_produto = produto →
      item.numero_lote = lote → ls.saldos = saldos →
      buscar_saldo_para_retorno cnpj produto lote saldos = some (i, s) →
      processar_retorno_consignacao nf item ls = none ∧
      processar_retorno_simbolico nf item ls = none ∧
      processar_faturamento nf item ls = none) := by
  refine ⟨?_, ?_, ?_⟩
  · intro i s h
    have hmem : (i, s) ∈
        ((enumSaldos 0 saldos).filter fun p => elegivel cnpj produto lote p.2) :=
      List.argmin_mem h
    rcases List.mem_filter.mp hmem with ⟨henum, helig⟩
    rcases mem_enumSaldos.mp henum with ⟨j, hij, hj⟩
    have hi : i = j := by omega
    subst hi
    refine ⟨hj, by simpa using helig, ?_⟩
    intro t ht heligt
    rcases mem_iff_enumSaldos.mp ht with ⟨jt, hjt⟩
    have hmt : (jt, t) ∈
        ((enumSaldos 0 saldos).filter fun p => elegivel cnpj produto lote p.2) :=
      List.mem_filter.mpr ⟨hjt, by simpa using heligt⟩
    have hle := List.le_of_mem_argmin hmt h
    simpa using hle
  · unfold buscar_saldo_para_retorno
    rw [List.argmin_eq_none, List.filter_eq_nil_iff]
    constructor
    · intro hf t ht
      rcases mem_iff_enumSaldos.mp ht with ⟨jt, hjt⟩
      have := hf (jt, t) hjt
      simpa using this
    · intro hall p hp
      rcases mem_enumSaldos.mp hp with ⟨j, hij, hj⟩
      have ht : p.2 ∈ saldos := by
        rw [List.mem_iff_getElem?]
        exact ⟨j, hj⟩
      simp [hall p.2 ht]
  · intro nf item i s ls hcnpj hprod hlote hls hsome
    subst hcnpj
    subst hprod
    subst hlote
    subst hls
    refine ⟨?_, ?_, ?_⟩
    · unfold processar_retorno_consignacao
      rw [hsome]
    · unfold processar_retorno_simbolico
      rw [hsome]
    · unfold processar_faturamento
      rw [hsome]

/-- Concrete instantiation of `buscar_retorno_fifo`: with two eligible
records of creation times `0` and `1` for the same triple, the lookup
selects the older record (position `0`), and the return operation then
raises (`none`) instead of crediting it. -/
theorem buscar_retorno_fifo_witness :
    ([saldoDemoA, saldoDemoB] : List SaldoMaterial)[0]? = some saldoDemoA ∧
    saldoDemoA.created_at < saldoDemoB.created_at ∧
    processar_retorno_consignacao nfRetornoDemo itemDemo
      ⟨[saldoDemoA, saldoDemoB], [], 2⟩ = none := by
  have h1 := (buscar_retorno_fifo "11222333000181" "P1" (some "L1")
      [saldoDemoA, saldoDemoB]).1 0 saldoDemoA buscar_demo
  have h3 := (buscar_retorno_fifo "11222333000181" "P1" (some "L1")
      [saldoDemoA, saldoDemoB]).2.2 nfRetornoDemo itemDemo 0 saldoDemoA
      ⟨[saldoDemoA, saldoDemoB], [], 2⟩ rfl rfl rfl rfl buscar_demo
  exact ⟨h1.1, by decide, h3.1⟩

/-- A successful matching lookup returns a row present at the returned
position, satisfying the eligibility predicate. -/
theorem buscar_some_getElem {cnpj produto : String} {lote : Option String}
    {saldos : List SaldoMaterial} {i : ℕ} {s : SaldoMaterial}
    (h : buscar_saldo_para_retorno cnpj produto lote saldos = some (i, s)) :
    saldos[i]? = some s ∧ elegivel cnpj produto lote s = true := by
  have hmem : (i, s) ∈
      ((enumSaldos 0 saldos).filter fun p => elegivel cnpj produto lote p.2) :=
    List.argmin_mem h
  rcases List.mem_filter.mp hmem with ⟨henum, helig⟩
  rcases mem_enumSaldos.mp henum with ⟨j, hij, hj⟩
  have hi : i = j := by omega
  subst hi
  exact ⟨hj, by simpa using helig⟩

/-- Updating a looked-up position with a row of the same id preserves the
id column. -/
theorem map_id_set {l : List SaldoMaterial} {i : ℕ} {s s' : SaldoMaterial}
    (hj : l[i]? = some s) (hid : s'.id = s.id) :
    (l.set i s').map SaldoMaterial.id = l.map SaldoMaterial.id := by
  rw [List.map_set]
  apply set_self
  rw [List.getElem?_map, hj]
  simp [hid]

/-- Claim C2 [code bug]: a shipment line does create a new balance record
exactly when no record matches the (counterparty, product, lot, shipment
access key) tuple — the new record is appended with the line quantity as
its shipped counter — but the "otherwise adds to the matched record's
shipped counter" half only holds when the matched record was created
earlier in the same ingestion session (both operands are Python floats);
when the matched record is database-loaded, `quantidade_enviada` is a
`decimal.Decimal` and `+=` of the float quantity raises `TypeError`
(`none`), rolling back the ingestion.  No operation kind other than
shipment ever creates a balance record: any non-shipment operation that
completes leaves the balance table unchanged. -/
theorem saida_cria_ou_incrementa :
    (∀ (nf : NFData) (item : ItemData) (ls : LedgerState) (ss : ℕ),
      (buscaSaida nf.destinatario_cnpj item.codigo_produto item.numero_lote
          nf.chave_acesso ls.saldos = none ↔
        ∀ t ∈ ls.saldos,
          filtroSaida nf.destinatario_cnpj item.codigo_produto item.numero_lote
            nf.chave_acesso t = false) ∧
      (buscaSaida nf.destinatario_cnpj item.codigo_produto item.numero_lote
          nf.chave_acesso ls.saldos = none →
        processar_saida_consignacao ss nf item ls =
          some { ls with
            saldos := ls.saldos ++ [novoSaldo nf item ls.clock]
            clock := ls.clock + 1 }) ∧
      (∀ i s, buscaSaida nf.destinatario_cnpj item.codigo_produto item.numero_lote
          nf.chave_acesso ls.saldos = some (i, s) →
        ls.saldos[i]? = some s ∧
        filtroSaida nf.destinatario_cnpj item.codigo_produto item.numero_lote
          nf.chave_acesso s = true ∧
        (ss ≤ s.id →
          processar_saida_consignacao ss nf item ls =
            some { ls with saldos :=
              (ls.saldos.set i
                { s with
                    quantidade_enviada := fadd s.quantidade_enviada item.quantidade }) }) ∧
        (s.id < ss → processar_saida_consignacao ss nf item ls = none))) ∧
    (∀ (ss : ℕ) (nf : NFData) (item : ItemData) (ls ls' : LedgerState),
      nf.tipo_operacao ≠ "saida" →
      atualizar_saldo ss nf item ls = some ls' → ls'.saldos = ls.saldos) := by
  constructor
  · intro nf item ls ss
    refine ⟨?_, ?_, ?_⟩
    · unfold buscaSaida
      rw [List.head?_eq_none_iff, List.filter_eq_nil_iff]
      constructor
      · intro hf t ht
        rcases mem_iff_enumSaldos.mp ht with ⟨jt, hjt⟩
        have := hf (jt, t) hjt
        simpa using this
      · intro hall p hp
        rcases mem_enumSaldos.mp hp with ⟨j, hij, hj⟩
        have ht : p.2 ∈ ls.saldos := by
          rw [List.mem_iff_getElem?]
          exact ⟨j, hj⟩
        simp [hall p.2 ht]
    · intro hnone
      unfold processar_saida_consignacao
      rw [hnone]
    · intro i s hsome
      have hmem : (i, s) ∈ ((enumSaldos 0 ls.saldos).filter fun p =>
          filtroSaida nf.destinatario_cnpj item.codigo_produto item.numero_lote
            nf.chave_acesso p.2) :=
        List.mem_of_mem_head? hsome
      rcases List.mem_filter.mp hmem with ⟨henum, hfil⟩
      rcases mem_enumSaldos.mp henum with ⟨j, hij, hj⟩
      have hi : i = j := by omega
      subst hi
      refine ⟨hj, by simpa using hfil, ?_, ?_⟩
      · intro hss
        unfold processar_saida_consignacao
        simp only [hsome]
        rw [if_pos hss]
      · intro hlt
        unfold processar_saida_consignacao
        simp only [hsome]
        rw [if_neg (by omega : ¬ ss ≤ s.id)]
  · intro ss nf item ls ls' hne h
    exact atualizar_nao_saida_saldos ss nf item ls ls' hne h

/-- Concrete instantiation of `saida_cria_ou_incrementa`: a shipment line
matching the record created earlier in the same session (session start
`0`, record id `0`) adds to its shipped counter in binary64
(`5.0 + 10.0 = 15.0`); the same line against the record as loaded from
the database (session start `1`) raises (`none`); and a successful
non-shipment operation leaves the balance table unchanged. -/
theorem saida_cria_ou_incrementa_witness :
    processar_saida_consignacao 0 nfSaida90 itemDemo ⟨[saldoDemoA, saldoDemoB], [], 2⟩ =
      some ⟨[{ saldoDemoA with quantidade_enviada := 15 }, saldoDemoB], [], 2⟩ ∧
    processar_saida_consignacao 1 nfSaida90 itemDemo ⟨[saldoDemoA, saldoDemoB], [], 2⟩ =
      none ∧
    atualizar_saldo 9 nfRetornoDemo itemL9 ⟨[saldoDemoA], [], 1⟩ =
      some ⟨[saldoDemoA], [⟨"retorno", "11222333000181", "P1", some "L9"⟩], 1⟩ ∧
    (⟨[saldoDemoA], [⟨"retorno", "11222333000181", "P1", some "L9"⟩], 1⟩ :
      LedgerState).saldos = [saldoDemoA] := by
  have hbusca : buscaSaida "11222333000181" "P1" (some "L1")
      "35240100000000000000550010000000901000000090" [saldoDemoA, saldoDemoB] =
        some (0, saldoDemoA) := by
    simp [buscaSaida, enumSaldos, filtroSaida, saldoDemoA, saldoDemoB]
  have h0 := (saida_cria_ou_incrementa.1 nfSaida90 itemDemo
      ⟨[saldoDemoA, saldoDemoB], [], 2⟩ 0).2.2 0 saldoDemoA hbusca
  have hinc := h0.2.2.1 (by decide)
  have h1 := (saida_cria_ou_incrementa.1 nfSaida90 itemDemo
      ⟨[saldoDemoA, saldoDemoB], [], 2⟩ 1).2.2 0 saldoDemoA hbusca
  have hnone := h1.2.2.2 (by decide)
  have hlog : atualizar_saldo 9 nfRetornoDemo itemL9 ⟨[saldoDemoA], [], 1⟩ =
      some ⟨[saldoDemoA], [⟨"retorno", "11222333000181", "P1", some "L9"⟩], 1⟩ := rfl
  have hpres := saida_cria_ou_incrementa.2 9 nfRetornoDemo itemL9 ⟨[saldoDemoA], [], 1⟩
      ⟨[saldoDemoA], [⟨"retorno", "11222333000181", "P1", some "L9"⟩], 1⟩
      (by decide) hlog
  refine ⟨?_, hnone, hlog, hpres⟩
  rw [hinc, show fadd saldoDemoA.quantidade_enviada itemDemo.quantidade = 15 from
    fadd_five_ten]
  exact rfl

/-! Concrete XML trees used by the concrete instantiations below. -/

/-- A leaf element with text content. -/
def leafEl (t s : String) : XElem := .mk t [] (some s) []

/-- A concrete `ide` block. -/
def ideDemo : XElem :=
  .mk "ide" [] none
    [leafEl "nNF" "101", leafEl "serie" "1", leafEl "dhEmi" "2024-01-05T10:00:00-03:00"]

/-- A concrete `dest` block with a punctuated tax id. -/
def destDemo : XElem :=
  .mk "dest" [] none [leafEl "CNPJ" "11.222.333/0001-81", leafEl "xNome" "Hospital A"]

/-- A line item carrying lot `L1` in a `rastro` traceability block, with
the given fiscal code and no numeric fields (they default to `0`). -/
def detComLote (cfop : String) : XElem :=
  .mk "det" [] none
    [.mk "prod" [] none
        [leafEl "cProd" "P1", leafEl "xProd" "Parafuso pedicular",
          .mk "rastro" [] none [leafEl "nLote" "L1"]],
      .mk "imposto" [] none [.mk "ICMS00" [] none [leafEl "CFOP" cfop]]]

/-- A line item with no lot information anywhere. -/
def detSemLote : XElem :=
  .mk "det" [] none [.mk "prod" [] none [leafEl "cProd" "P2", leafEl "xProd" "Placa"]]

/-- A complete return invoice document: one lot-bearing line and one
lot-less line. -/
def rootRetornoDemo : XElem :=
  .mk "nfeProc" [] none
    [.mk "NFe" [] none
        [.mk "infNFe" [("Id", "NFe35240100000000000000550010000001021000000022")] none
            [ideDemo, destDemo, detComLote "1918", detSemLote]]]

/-- A complete shipment invoice document with one lot-bearing line. -/
def rootSaidaDemo : XElem :=
  .mk "nfeProc" [] none
    [.mk "NFe" [] none
        [.mk "infNFe" [("Id", "NFe35240100000000000000550010000001011000000011")] none
            [ideDemo, destDemo, detComLote "5917"]]]

/-- The parsed lot-bearing line item of the demo documents. -/
def itemParsedP1 : ItemData :=
  { codigo_produto := "P1"
    descricao_produto := "Parafuso pedicular"
    quantidade := 0
    valor_unitario := 0
    valor_total := 0
    numero_lote := some "L1"
    data_fabricacao := none
    data_validade := none }

/-- The parsed lot-less line item of the demo documents. -/
def itemParsedP2 : ItemData :=
  { codigo_produto := "P2"
    descricao_produto := "Placa"
    quantidade := 0
    valor_unitario := 0
    valor_total := 0
    numero_lote := none
    data_fabricacao := none
    data_validade := none }

/-- The structured invoice `parse_xml` produces for `rootRetornoDemo`. -/
def nfParsedRetorno : NFData :=
  { numero := some "101"
    serie := some "1"
    chave_acesso := "35240100000000000000550010000001021000000022"
    data_emissao := some "2024-01-05T10:00:00-03:00"
    cfop := "1918"
    tipo_operacao := "retorno"
    destinatario_cnpj := "11222333000181"
    destinatario_nome := "Hospital A"
    itens := [itemParsedP1, itemParsedP2] }

/-- Claim C3: processing an invoice whose access key is already ingested
returns the duplicate rejection (a result distinct from success and from
the internal-failure result) and writes nothing: the state — invoices,
invoice lines and balance records — is returned unchanged. -/
theorem nota_duplicada_rejeitada (root : XElem) (st : DBState) (nf : NFData)
    (hval : validate_xml_structure root = (true, ""))
    (hparse : parse_xml root = some nf)
    (hdup : st.notas.any (fun n => n.chave_acesso == nf.chave_acesso) = true) :
    processar_nota_fiscal root st = (ProcResult.duplicate nf.numero nf.serie, st) := by
  unfold processar_nota_fiscal
  rw [hval, hparse]
  simp only [hdup, if_true]

/-- Concrete instantiation of `nota_duplicada_rejeitada`: ingesting the
demo shipment document twice — the second attempt is rejected as a
duplicate and leaves the state after the first ingestion unchanged. -/
theorem nota_duplicada_rejeitada_witness :
    processar_nota_fiscal rootSaidaDemo
        (processar_nota_fiscal rootSaidaDemo ⟨[], [], ⟨[], [], 0⟩, 0⟩).2 =
      (ProcResult.duplicate (some "101") (some "1"),
        (processar_nota_fiscal rootSaidaDemo ⟨[], [], ⟨[], [], 0⟩, 0⟩).2) := by
  have h := nota_duplicada_rejeitada rootSaidaDemo
      (processar_nota_fiscal rootSaidaDemo ⟨[], [], ⟨[], [], 0⟩, 0⟩).2
      { numero := some "101"
        serie := some "1"
        chave_acesso := "35240100000000000000550010000001011000000011"
        data_emissao := some "2024-01-05T10:00:00-03:00"
        cfop := "5917"
        tipo_operacao := "saida"
        destinatario_cnpj := "11222333000181"
        destinatario_nome := "Hospital A"
        itens := [itemParsedP1] }
      rfl rfl rfl
  exact h

/-- Claim C4 (amended): a return/symbolic-return/billing line that finds
no record with positive available quantity mutates no record — the ledger
operation only appends a warning to the log — and when every lot-bearing
line of the invoice is unmatched, the ingestion completes successfully
with the invoice header, every line and an unchanged balance table
persisted.  As stated the claim is false: when another line of the same
invoice does match a record, that line's `Decimal += float` counter
update raises `TypeError` and the rollback also discards the unmatched
line's writes (see the counterexample). -/
theorem retorno_sem_saldo_anomalia :
    (∀ (nf : NFData) (item : ItemData) (ls : LedgerState),
      buscar_saldo_para_retorno nf.destinatario_cnpj item.codigo_produto item.numero_lote
        ls.saldos = none →
      processar_retorno_consignacao nf item ls =
        some { ls with log := ls.log ++
            [⟨"retorno", nf.destinatario_cnpj, item.codigo_produto, item.numero_lote⟩] } ∧
      processar_retorno_simbolico nf item ls =
        some { ls with log := ls.log ++
            [⟨"retorno simbolico", nf.destinatario_cnpj, item.codigo_produto,
              item.numero_lote⟩] } ∧
      processar_faturamento nf item ls =
        some { ls with log := ls.log ++
            [⟨"faturamento", nf.destinatario_cnpj, item.codigo_produto,
              item.numero_lote⟩] }) ∧
    (∀ (root : XElem) (st : DBState) (nf : NFData) (d : String),
      validate_xml_structure root = (true, "") →
      parse_xml root = some nf →
      st.notas.any (fun n => n.chave_acesso == nf.chave_acesso) = false →
      nf.data_emissao = some d →
      (nf.tipo_operacao = "retorno" ∨ nf.tipo_operacao = "simbolico" ∨
        nf.tipo_operacao = "faturamento") →
      (∀ it ∈ nf.itens, pyTruthy it.numero_lote = true →
        buscar_saldo_para_retorno nf.destinatario_cnpj it.codigo_produto it.numero_lote
          st.ledger.saldos = none) →
      (processar_nota_fiscal root st).1 =
        ProcResult.success st.nextNotaId nf.tipo_operacao
          ((nf.itens.filter fun it => pyTruthy it.numero_lote).length) ∧
      (processar_nota_fiscal root st).2.notas =
        st.notas ++ [notaRowOf nf st.nextNotaId] ∧
      (processar_nota_fiscal root st).2.itens =
        st.itens ++ nf.itens.map
          (fun it => { nota_fiscal_id := st.nextNotaId, item := it }) ∧
      (processar_nota_fiscal root st).2.ledger.saldos = st.ledger.saldos) := by
  constructor
  · intro nf item ls hnone
    refine ⟨?_, ?_, ?_⟩
    · unfold processar_retorno_consignacao
      rw [hnone]
    · unfold processar_retorno_simbolico
      rw [hnone]
    · unfold processar_faturamento
      rw [hnone]
  · intro root st nf d hval hparse hany hd htipo hnm
    obtain ⟨st', hfold, h1, h2, h3, h4⟩ := fold_nao_saida_sem_match st.ledger.clock
      st.nextNotaId nf nf.itens htipo
      { st with
          notas := st.notas ++ [notaRowOf nf st.nextNotaId]
          nextNotaId := st.nextNotaId + 1 } 0 hnm
    have hmain : processar_nota_fiscal root st =
        (ProcResult.success st.nextNotaId nf.tipo_operacao
          (0 + (nf.itens.filter fun it => pyTruthy it.numero_lote).length), st') := by
      unfold processar_nota_fiscal
      rw [hval, hparse]
      simp only [hany, Bool.false_eq_true, if_false, hd]
      rw [hfold]
    refine ⟨?_, ?_, ?_, ?_⟩
    · rw [hmain]
      simp
    · rw [hmain]
      simpa using h1
    · rw [hmain]
      simpa using h3
    · rw [hmain]
      simpa using h4

/-- Concrete instantiation of `retorno_sem_saldo_anomalia`: a return line
against an empty balance table only logs the anomaly, and ingesting the
demo return document over an empty state succeeds with one processed
line. -/
theorem retorno_sem_saldo_anomalia_witness :
    processar_retorno_consignacao nfParsedRetorno itemParsedP1 ⟨[], [], 0⟩ =
      some ⟨[], [⟨"retorno", "11222333000181", "P1", some "L1"⟩], 0⟩ ∧
    (processar_nota_fiscal rootRetornoDemo ⟨[], [], ⟨[], [], 0⟩, 0⟩).1 =
      ProcResult.success 0 "retorno" 1 := by
  have h1 := (retorno_sem_saldo_anomalia.1 nfParsedRetorno itemParsedP1 ⟨[], [], 0⟩ rfl).1
  have h2 := (retorno_sem_saldo_anomalia.2 rootRetornoDemo ⟨[], [], ⟨[], [], 0⟩, 0⟩
      nfParsedRetorno "2024-01-05T10:00:00-03:00" rfl rfl rfl rfl (Or.inl rfl)
      (fun it _ _ => rfl)).1
  exact ⟨h1, h2⟩

/-- A line item carrying lot `L2` on product `P2` in a `rastro`
traceability block, with the given fiscal code. -/
def detComLoteP2 (cfop : String) : XElem :=
  .mk "det" [] none
    [.mk "prod" [] none
        [leafEl "cProd" "P2", leafEl "xProd" "Placa",
          .mk "rastro" [] none [leafEl "nLote" "L2"]],
      .mk "imposto" [] none [.mk "ICMS00" [] none [leafEl "CFOP" cfop]]]

/-- A return invoice with one unmatched lot line (`P2`/`L2`) followed by
one line matching the committed demo record (`P1`/`L1`). -/
def rootRetornoMisto : XElem :=
  .mk "nfeProc" [] none
    [.mk "NFe" [] none
        [.mk "infNFe" [("Id", "NFe35240100000000000000550010000001031000000033")] none
            [ideDemo, destDemo, detComLoteP2 "1918", detComLote "1918"]]]

/-- The parsed `P2`/`L2` line of `rootRetornoMisto`. -/
def itemParsedP2L2 : ItemData :=
  { codigo_produto := "P2"
    descricao_produto := "Placa"
    quantidade := 0
    valor_unitario := 0
    valor_total := 0
    numero_lote := some "L2"
    data_fabricacao := none
    data_validade := none }

/-- The structured invoice `parse_xml` produces for `rootRetornoMisto`. -/
def nfParsedMisto : NFData :=
  { numero := some "101"
    serie := some "1"
    chave_acesso := "35240100000000000000550010000001031000000033"
    data_emissao := some "2024-01-05T10:00:00-03:00"
    cfop := "1918"
    tipo_operacao := "retorno"
    destinatario_cnpj := "11222333000181"
    destinatario_nome := "Hospital A"
    itens := [itemParsedP2L2, itemParsedP1] }

/-- The pre-call state of the mixed-return counterexample: an empty
invoice table over one committed balance record. -/
def stMisto : DBState := ⟨[], [], ⟨[saldoDemoA], [], 1⟩, 0⟩

/-- Claim C4 is false as stated: in a return invoice whose first line is
unmatched and whose second line matches the committed record, the matched
line's counter update (`Decimal += float`) raises `TypeError` and the
whole ingestion — including the unmatched first line's row and warning,
and the invoice header — is rolled back and reported as an internal
failure instead of committing. -/
theorem retorno_sem_saldo_anomalia_counterexample :
    buscar_saldo_para_retorno "11222333000181" "P2" (some "L2") [saldoDemoA] = none ∧
    buscar_saldo_para_retorno "11222333000181" "P1" (some "L1") [saldoDemoA] =
      some (0, saldoDemoA) ∧
    processar_nota_fiscal rootRetornoMisto stMisto = (ProcResult.internalError, stMisto) := by
  have hb1 : buscar_saldo_para_retorno "11222333000181" "P1" (some "L1") [saldoDemoA] =
      some (0, saldoDemoA) := by
    simp [buscar_saldo_para_retorno, enumSaldos, List.filter_cons, elegivel_saldoDemoA,
      List.argmin, List.argAux]
  refine ⟨rfl, hb1, ?_⟩
  have hmatched : atualizar_saldo 1 nfParsedMisto itemParsedP1
      (⟨[saldoDemoA], [⟨"retorno", "11222333000181", "P2", some "L2"⟩], 1⟩ : LedgerState) =
      none :=
    atualizar_retorno_matched 1 nfParsedMisto itemParsedP1 _ (0, saldoDemoA) rfl hb1
  have hfirst : processar_item 1 0 nfParsedMisto
      (some ((⟨[notaRowOf nfParsedMisto 0], [], ⟨[saldoDemoA], [], 1⟩, 1⟩ : DBState), 0))
      itemParsedP2L2 =
      some ((⟨[notaRowOf nfParsedMisto 0],
        [({ nota_fiscal_id := 0, item := itemParsedP2L2 } : ItemRow)],
        ⟨[saldoDemoA], [⟨"retorno", "11222333000181", "P2", some "L2"⟩], 1⟩, 1⟩ : DBState),
        1) := rfl
  have hsecond : processar_item 1 0 nfParsedMisto
      (some ((⟨[notaRowOf nfParsedMisto 0],
        [({ nota_fiscal_id := 0, item := itemParsedP2L2 } : ItemRow)],
        ⟨[saldoDemoA], [⟨"retorno", "11222333000181", "P2", some "L2"⟩], 1⟩, 1⟩ : DBState),
        1)) itemParsedP1 = none :=
    processar_item_matched_none 1 0 nfParsedMisto itemParsedP1 _ 1 rfl hmatched
  have hkey : List.foldl (processar_item 1 0 nfParsedMisto)
      (some ((⟨[notaRowOf nfParsedMisto 0], [], ⟨[saldoDemoA], [], 1⟩, 1⟩ : DBState), 0))
      [itemParsedP2L2, itemParsedP1] = none := by
    rw [List.foldl_cons, hfirst, List.foldl_cons, hsecond]
    rfl
  have hpipe : processar_nota_fiscal rootRetornoMisto stMisto =
      (match List.foldl (processar_item 1 0 nfParsedMisto)
          (some ((⟨[notaRowOf nfParsedMisto 0], [], ⟨[saldoDemoA], [], 1⟩, 1⟩ : DBState), 0))
          [itemParsedP2L2, itemParsedP1] with
        | some (st2, cnt) => (ProcResult.success 0 nfParsedMisto.tipo_operacao cnt, st2)
        | none => (ProcResult.internalError, stMisto)) := rfl
  rw [hpipe, hkey]

/-- Claim C9: a line item without a truthy lot number is persisted as an
invoice line but triggers no ledger activity of any kind (the ledger
sub-state of the accumulator is untouched) and is excluded from the
processed count; and any ingestion whose item loop completes without
raising returns as processed count the number of lines whose lot number
is truthy — at most, and possibly strictly less than, the total line
count — with every line persisted. -/
theorem item_sem_lote_fora_da_contagem :
    (∀ (ss notaId : ℕ) (nf : NFData) (item : ItemData) (st : DBState) (c : ℕ),
      pyTruthy item.numero_lote = false →
      processar_item ss notaId nf (some (st, c)) item =
        some ({ st with
          itens := st.itens ++ [({ nota_fiscal_id := notaId, item := item } : ItemRow)] },
          c)) ∧
    (∀ (root : XElem) (st : DBState) (nf : NFData) (d : String) (st2 : DBState) (cnt : ℕ),
      validate_xml_structure root = (true, "") →
      parse_xml root = some nf →
      st.notas.any (fun n => n.chave_acesso == nf.chave_acesso) = false →
      nf.data_emissao = some d →
      nf.itens.foldl (processar_item st.ledger.clock st.nextNotaId nf)
        (some ({ st with
          notas := st.notas ++ [notaRowOf nf st.nextNotaId]
          nextNotaId := st.nextNotaId + 1 }, 0)) = some (st2, cnt) →
      (processar_nota_fiscal root st).1 =
        ProcResult.success st.nextNotaId nf.tipo_operacao
          ((nf.itens.filter fun it => pyTruthy it.numero_lote).length) ∧
      (processar_nota_fiscal root st).2.itens =
        st.itens ++ nf.itens.map
          (fun it => { nota_fiscal_id := st.nextNotaId, item := it }) ∧
      (nf.itens.filter fun it => pyTruthy it.numero_lote).length ≤ nf.itens.length) := by
  constructor
  · intro ss notaId nf item st c hfalse
    simp [processar_item, hfalse]
  · intro root st nf d st2 cnt hval hparse hany hd hfold
    rcases fold_processar_item_some st.ledger.clock st.nextNotaId nf nf.itens _ _ _ _ hfold
      with ⟨h1, h2, h3, h4⟩
    have hmain : processar_nota_fiscal root st =
        (ProcResult.success st.nextNotaId nf.tipo_operacao cnt, st2) := by
      unfold processar_nota_fiscal
      rw [hval, hparse]
      simp only [hany, Bool.false_eq_true, if_false, hd]
      rw [hfold]
    refine ⟨?_, ?_, List.length_filter_le _ _⟩
    · rw [hmain, h4]
      simp
    · rw [hmain]
      simpa using h3

/-- Concrete instantiation of `item_sem_lote_fora_da_contagem`: the demo
return document has two line items, one without a lot; both lines are
persisted while the processed count is `1`, strictly less than `2`. -/
theorem item_sem_lote_fora_da_contagem_witness :
    processar_item 0 0 nfParsedRetorno (some (⟨[], [], ⟨[], [], 0⟩, 1⟩, 0)) itemParsedP2 =
      some (⟨[], [({ nota_fiscal_id := 0, item := itemParsedP2 } : ItemRow)],
        ⟨[], [], 0⟩, 1⟩, 0) ∧
    (processar_nota_fiscal rootRetornoDemo ⟨[], [], ⟨[], [], 0⟩, 0⟩).1 =
      ProcResult.success 0 "retorno" 1 ∧
    (processar_nota_fiscal rootRetornoDemo ⟨[], [], ⟨[], [], 0⟩, 0⟩).2.itens =
      [({ nota_fiscal_id := 0, item := itemParsedP1 } : ItemRow),
        ({ nota_fiscal_id := 0, item := itemParsedP2 } : ItemRow)] ∧
    (1 : ℕ) < 2 := by
  have h1 := item_sem_lote_fora_da_contagem.1 0 0 nfParsedRetorno itemParsedP2
      ⟨[], [], ⟨[], [], 0⟩, 1⟩ 0 rfl
  have hfold : nfParsedRetorno.itens.foldl (processar_item 0 0 nfParsedRetorno)
      (some ((⟨[notaRowOf nfParsedRetorno 0], [], ⟨[], [], 0⟩, 1⟩ : DBState), 0)) =
      some ((⟨[notaRowOf nfParsedRetorno 0],
        [({ nota_fiscal_id := 0, item := itemParsedP1 } : ItemRow),
          ({ nota_fiscal_id := 0, item := itemParsedP2 } : ItemRow)],
        ⟨[], [⟨"retorno", "11222333000181", "P1", some "L1"⟩], 0⟩, 1⟩ : DBState), 1) := rfl
  have h2 := item_sem_lote_fora_da_contagem.2 rootRetornoDemo ⟨[], [], ⟨[], [], 0⟩, 0⟩
      nfParsedRetorno "2024-01-05T10:00:00-03:00" _ 1 rfl rfl rfl rfl hfold
  refine ⟨h1, h2.1, ?_, by norm_num⟩
  have h3 := h2.2.1
  simpa [nfParsedRetorno] using h3

/-- Truthiness of an absent optional string. -/
theorem pyTruthy_none : pyTruthy none = false := rfl

/-- Claim C6: per-line lot extraction follows a strict priority order with
first match winning: a truthy lot from the `rastro` traceability block is
used if present; otherwise a truthy lot from the `med` block; otherwise
the additional-information text is scanned against the fixed ordered
pattern list and the first pattern that matches supplies the lot, later
patterns not being tried; a line with no lot anywhere yields a falsy
(absent) lot number, which is not an error. -/
theorem extracao_lote_prioridade :
    (∀ (det rastro : XElem), det.findDeep "rastro" = some rastro →
      pyTruthy (rastro.childText "nLote") = true →
      (extract_lote_data det).numero_lote = rastro.childText "nLote") ∧
    (∀ (det med : XElem),
      pyTruthy ((det.findDeep "rastro").bind fun r => r.childText "nLote") = false →
      det.findDeep "med" = some med →
      pyTruthy (med.childText "nLote") = true →
      (extract_lote_data det).numero_lote = med.childText "nLote") ∧
    (∀ (det : XElem) (cap : String),
      pyTruthy ((det.findDeep "rastro").bind fun r => r.childText "nLote") = false →
      pyTruthy ((det.findDeep "med").bind fun m => m.childText "nLote") = false →
      searchLotePatterns lote_patterns ((det.findtextDeep "infAdProd").getD "") = some cap →
      (extract_lote_data det).numero_lote = some cap) ∧
    (∀ det : XElem,
      pyTruthy ((det.findDeep "rastro").bind fun r => r.childText "nLote") = false →
      pyTruthy ((det.findDeep "med").bind fun m => m.childText "nLote") = false →
      searchLotePatterns lote_patterns ((det.findtextDeep "infAdProd").getD "") = none →
      pyTruthy (extract_lote_data det).numero_lote = false) ∧
    (∀ (ps : List (List String)) (s : String) (k : ℕ) (p : List String) (c : String),
      ps[k]? = some p →
      (∀ j q, j < k → ps[j]? = some q → reSearch q s = none) →
      reSearch p s = some c →
      searchLotePatterns ps s = some c) := by
  refine ⟨?_, ?_, ?_, ?_, ?_⟩
  · intro det rastro hr htr
    simp [extract_lote_data, hr, htr]
  · intro det med hfr hm htm
    rcases hr : det.findDeep "rastro" with _ | r
    · rw [hr] at hfr
      simp [extract_lote_data, hr, hm, htm, pyTruthy_none]
    · rw [hr] at hfr
      simp at hfr
      simp [extract_lote_data, hr, hfr, hm, htm]
  · intro det cap hfr hfm hsearch
    rcases hr : det.findDeep "rastro" with _ | r
    · rcases hm : det.findDeep "med" with _ | m
      · simp [extract_lote_data, hr, hm, hsearch, pyTruthy_none]
      · rw [hm] at hfm
        simp at hfm
        simp [extract_lote_data, hr, hm, hfm, hsearch, pyTruthy_none]
    · rw [hr] at hfr
      simp at hfr
      rcases hm : det.findDeep "med" with _ | m
      · simp [extract_lote_data, hr, hm, hfr, hsearch]
      · rw [hm] at hfm
        simp at hfm
        simp [extract_lote_data, hr, hm, hfr, hfm, hsearch]
  · intro det hfr hfm hsearch
    rcases hr : det.findDeep "rastro" with _ | r
    · rcases hm : det.findDeep "med" with _ | m
      · simp [extract_lote_data, hr, hm, hsearch, pyTruthy_none]
      · rw [hm] at hfm
        simp at hfm
        simp [extract_lote_data, hr, hm, hfm, hsearch, pyTruthy_none]
    · rw [hr] at hfr
      simp at hfr
      rcases hm : det.findDeep "med" with _ | m
      · simp [extract_lote_data, hr, hm, hfr, hsearch]
      · rw [hm] at hfm
        simp at hfm
        simp [extract_lote_data, hr, hm, hfr, hfm, hsearch]
  · intro ps s k p c hk hprev hsearch
    induction ps generalizing k with
    | nil => simp at hk
    | cons q qs ih =>
        cases k with
        | zero =>
            simp only [List.getElem?_cons_zero, Option.some.injEq] at hk
            subst hk
            simp [searchLotePatterns, hsearch]
        | succ k' =>
            have h0 : reSearch q s = none := hprev 0 q (by omega) (by simp)
            simp only [searchLotePatterns, h0]
            exact ih k' (by simpa using hk)
              (fun j q' hj hq' => hprev (j + 1) q' (by omega) (by simpa using hq'))

/-- A line item carrying both a traceability-block lot `L1` and a
free-text label `LOTE: ABC123`. -/
def detLoteDuplo : XElem :=
  .mk "det" [] none
    [.mk "prod" [] none
        [leafEl "cProd" "P1",
          .mk "rastro" [] none [leafEl "nLote" "L1"],
          leafEl "infAdProd" "LOTE: ABC123"]]

/-- A line item whose only lot information is the free-text label
`LOTE: ABC123`. -/
def detLoteTexto : XElem :=
  .mk "det" [] none
    [.mk "prod" [] none [leafEl "cProd" "P1", leafEl "infAdProd" "LOTE: ABC123"]]

/-- Concrete instantiation of `extracao_lote_prioridade`: with both a
traceability lot and a free-text label present the traceability lot wins;
with only the free-text label, extraction yields `ABC123`. -/
theorem extracao_lote_prioridade_witness :
    (extract_lote_data detLoteDuplo).numero_lote = some "L1" ∧
    (extract_lote_data detLoteTexto).numero_lote = some "ABC123" := by
  constructor
  · have h := extracao_lote_prioridade.1 detLoteDuplo
      (.mk "rastro" [] none [leafEl "nLote" "L1"]) rfl rfl
    exact h
  · have h := extracao_lote_prioridade.2.2.1 detLoteTexto "ABC123" rfl rfl rfl
    exact h

/-- A successful exact-tuple lookup returns a row present at the returned
position. -/
theorem buscaSaida_some_getElem {cnpj produto chave : String} {lote : Option String}
    {saldos : List SaldoMaterial} {i : ℕ} {s : SaldoMaterial}
    (h : buscaSaida cnpj produto lote chave saldos = some (i, s)) :
    saldos[i]? = some s := by
  have hmem := List.mem_of_mem_head? h
  rcases List.mem_filter.mp hmem with ⟨henum, _⟩
  rcases mem_enumSaldos.mp henum with ⟨j, hij, hj⟩
  have hi : i = j := by omega
  subst hi
  exact hj

/-- Updating one looked-up row with counter-wise larger values keeps every
position's counters no smaller than before. -/
theorem mono_set {l : List SaldoMaterial} {j : ℕ} {t t' : SaldoMaterial}
    (hj : l[j]? = some t)
    (h1 : t.quantidade_enviada ≤ t'.quantidade_enviada)
    (h2 : t.quantidade_retornada ≤ t'.quantidade_retornada)
    (h3 : t.quantidade_utilizada ≤ t'.quantidade_utilizada)
    (h4 : t.quantidade_faturada ≤ t'.quantidade_faturada)
    {i : ℕ} {s : SaldoMaterial} (hs : l[i]? = some s) :
    ∃ s', (l.set j t')[i]? = some s' ∧
      s.quantidade_enviada ≤ s'.quantidade_enviada ∧
      s.quantidade_retornada ≤ s'.quantidade_retornada ∧
      s.quantidade_utilizada ≤ s'.quantidade_utilizada ∧
      s.quantidade_faturada ≤ s'.quantidade_faturada := by
  by_cases hij : j = i
  · subst hij
    rw [hj] at hs
    injection hs with hs
    subst hs
    have hlen : j < l.length := by
      rcases List.getElem?_eq_some.mp hj with ⟨hlt, _⟩
      exact hlt
    exact ⟨t', by simp [List.getElem?_set_self hlen], h1, h2, h3, h4⟩
  · refine ⟨s, ?_, le_rfl, le_rfl, le_rfl, le_rfl⟩
    rw [List.getElem?_set_ne hij]
    exact hs

/-- Claim C7 (amended): provided the line quantity is nonnegative and the
stored shipped counters are binary64-representable, a ledger operation
that completes without raising leaves each of the four counters
(shipped, returned, consumed, billed) of every balance record at least
its value before the operation.  As stated the claim fails: the parser's
`float()` conversion accepts negative quantity literals, and the one
counter update that can succeed — the same-session shipped increment —
then decreases the counter (see the counterexample). -/
theorem contadores_monotonos_qtd_nao_negativa (ss : ℕ) (nf : NFData) (item : ItemData)
    (h : 0 ≤ item.quantidade) (ls ls' : LedgerState)
    (hrep : ∀ t ∈ ls.saldos, roundDouble t.quantidade_enviada = t.quantidade_enviada)
    (hup : atualizar_saldo ss nf item ls = some ls')
    (i : ℕ) (s : SaldoMaterial) (hs : ls.saldos[i]? = some s) :
    ∃ s', ls'.saldos[i]? = some s' ∧
      s.quantidade_enviada ≤ s'.quantidade_enviada ∧
      s.quantidade_retornada ≤ s'.quantidade_retornada ∧
      s.quantidade_utilizada ≤ s'.quantidade_utilizada ∧
      s.quantidade_faturada ≤ s'.quantidade_faturada := by
  have hself : ∃ s', ls.saldos[i]? = some s' ∧
      s.quantidade_enviada ≤ s'.quantidade_enviada ∧
      s.quantidade_retornada ≤ s'.quantidade_retornada ∧
      s.quantidade_utilizada ≤ s'.quantidade_utilizada ∧
      s.quantidade_faturada ≤ s'.quantidade_faturada :=
    ⟨s, hs, le_rfl, le_rfl, le_rfl, le_rfl⟩
  have hlen : i < ls.saldos.length := by
    rcases List.getElem?_eq_some.mp hs with ⟨hlt, _⟩
    exact hlt
  unfold atualizar_saldo at hup
  cases hsd : (nf.tipo_operacao == "saida") with
  | true =>
      rw [hsd] at hup
      simp only [if_true] at hup
      unfold processar_saida_consignacao at hup
      rcases hb : buscaSaida nf.destinatario_cnpj item.codigo_produto item.numero_lote
          nf.chave_acesso ls.saldos with _ | ⟨j, t⟩
      · simp only [hb, Option.some.injEq] at hup
        refine ⟨s, ?_, le_rfl, le_rfl, le_rfl, le_rfl⟩
        rw [← hup]
        show (ls.saldos ++ [novoSaldo nf item ls.clock])[i]? = some s
        rw [List.getElem?_append_left hlen]
        exact hs
      · simp only [hb] at hup
        by_cases hss : ss ≤ t.id
        · rw [if_pos hss] at hup
          simp only [Option.some.injEq] at hup
          subst hup
          have hjt := buscaSaida_some_getElem hb
          have htmem : t ∈ ls.saldos := List.mem_iff_getElem?.mpr ⟨j, hjt⟩
          apply mono_set hjt
          · exact le_fadd_of_fixed (hrep t htmem) h
          · exact le_rfl
          · exact le_rfl
          · exact le_rfl
          · exact hs
        · rw [if_neg hss] at hup
          simp at hup
  | false =>
      rw [hsd] at hup
      simp only [Bool.false_eq_true, if_false] at hup
      cases hr : (nf.tipo_operacao == "retorno") with
      | true =>
          rw [hr] at hup
          simp only [if_true] at hup
          unfold processar_retorno_consignacao at hup
          rcases hb : buscar_saldo_para_retorno nf.destinatario_cnpj item.codigo_produto
              item.numero_lote ls.saldos with _ | p
          · simp only [hb, Option.some.injEq] at hup
            rw [← hup]
            exact hself
          · simp [hb] at hup
      | false =>
          rw [hr] at hup
          simp only [Bool.false_eq_true, if_false] at hup
          cases hsim : (nf.tipo_operacao == "simbolico") with
          | true =>
              rw [hsim] at hup
              simp only [if_true] at hup
              unfold processar_retorno_simbolico at hup
              rcases hb : buscar_saldo_para_retorno nf.destinatario_cnpj item.codigo_produto
                  item.numero_lote ls.saldos with _ | p
              · simp only [hb, Option.some.injEq] at hup
                rw [← hup]
                exact hself
              · simp [hb] at hup
          | false =>
              rw [hsim] at hup
              simp only [Bool.false_eq_true, if_false] at hup
              cases hft : (nf.tipo_operacao == "faturamento") with
              | true =>
                  rw [hft] at hup
                  simp only [if_true] at hup
                  unfold processar_faturamento at hup
                  rcases hb : buscar_saldo_para_retorno nf.destinatario_cnpj
                      item.codigo_produto item.numero_lote ls.saldos with _ | p
                  · simp only [hb, Option.some.injEq] at hup
                    rw [← hup]
                    exact hself
                  · simp [hb] at hup
              | false =>
                  rw [hft] at hup
                  simp only [Bool.false_eq_true, if_false, Option.some.injEq] at hup
                  rw [← hup]
                  exact hself

/-- Concrete instantiation of `contadores_monotonos_qtd_nao_negativa`: a
same-session shipment of nonnegative quantity `10` leaves every counter
of every stored record at least as large as before. -/
theorem contadores_monotonos_witness :
    ∃ s', (⟨[{ saldoDemoA with
        quantidade_enviada := fadd saldoDemoA.quantidade_enviada itemDemo.quantidade },
        saldoDemoB], [], 2⟩ : LedgerState).saldos[0]? = some s' ∧
      saldoDemoA.quantidade_enviada ≤ s'.quantidade_enviada ∧
      saldoDemoA.quantidade_retornada ≤ s'.quantidade_retornada ∧
      saldoDemoA.quantidade_utilizada ≤ s'.quantidade_utilizada ∧
      saldoDemoA.quantidade_faturada ≤ s'.quantidade_faturada := by
  have hrep : ∀ t ∈ ([saldoDemoA, saldoDemoB] : List SaldoMaterial),
      roundDouble t.quantidade_enviada = t.quantidade_enviada := by
    intro t ht
    rcases List.mem_cons.mp ht with rfl | ht2
    · exact roundDouble_five
    · rcases List.mem_cons.mp ht2 with rfl | ht3
      · have h7 := roundDouble_natCast 7 (by norm_num)
        push_cast at h7
        exact h7
      · simp at ht3
  have hup : atualizar_saldo 0 nfSaida90 itemDemo ⟨[saldoDemoA, saldoDemoB], [], 2⟩ =
      some ⟨[{ saldoDemoA with
        quantidade_enviada := fadd saldoDemoA.quantidade_enviada itemDemo.quantidade },
        saldoDemoB], [], 2⟩ := rfl
  exact contadores_monotonos_qtd_nao_negativa 0 nfSaida90 itemDemo
    (by norm_num [itemDemo]) ⟨[saldoDemoA, saldoDemoB], [], 2⟩ _ hrep hup 0 saldoDemoA rfl

/-- A parsed line item of quantity `-1` (the conversion the parser
applies to the line's `qCom` text `-1`). -/
def itemNegDemo : ItemData := { itemDemo with quantidade := -1 }

/-- Claim C7 is false as stated: the parser accepts a negative quantity
literal (`float('-1')` yields `-1`), and a shipment line of quantity `-1`
matching the balance record created by an earlier line of the same
ingestion decreases its shipped counter from `5` to `4` — both operands
are session-fresh Python floats, so this addition succeeds. -/
theorem contadores_monotonos_counterexample :
    pyFloatField (some "-1") = some (-1 : ℚ) ∧
    CFOP_MAPPING "5917" = "saida" ∧
    atualizar_saldo 0 nfSaida90 itemNegDemo ⟨[saldoDemoA], [], 1⟩ =
      some ⟨[{ saldoDemoA with quantidade_enviada := 4 }], [], 1⟩ ∧
    saldoDemoA.quantidade_enviada = 5 ∧ ((4 : ℚ) < 5) := by
  have hfield : pyFloatField (some "-1") = some (-1 : ℚ) := by
    have hpd : parseDecimal "-1" = some (-1 : ℚ) := by
      simp [parseDecimal, parseUnsignedDecimal, splitOnDot, digitsToNat, digitVal]
    have hrd : roundDouble (-1 : ℚ) = -1 := by
      have := roundDouble_intCast (-1) (by norm_num)
      push_cast at this
      exact this
    simp [pyFloatField, pyTruthy, pyFloatOfString, hpd, hrd]
    decide
  have hstep : atualizar_saldo 0 nfSaida90 itemNegDemo ⟨[saldoDemoA], [], 1⟩ =
      some ⟨[{ saldoDemoA with
        quantidade_enviada := fadd saldoDemoA.quantidade_enviada itemNegDemo.quantidade }],
        [], 1⟩ := rfl
  refine ⟨hfield, rfl, ?_, rfl, by norm_num⟩
  rw [hstep, show fadd saldoDemoA.quantidade_enviada itemNegDemo.quantidade = 4 from
    fadd_five_neg_one]

/-- A line item whose quantity text is the decimal literal `0.1`. -/
def detDecimal : XElem :=
  .mk "det" [] none
    [.mk "prod" [] none [leafEl "cProd" "P1", leafEl "qCom" "0.1"]]

/-- Claim C8 is false as stated: quantities do pass through binary
floating point.  The exact value of the decimal literal `0.1` is `1/10`,
but the parser's numeric conversion (`float(qCom)`) stores the nearest
binary64 value `3602879701896397 / 2 ^ 55`, which differs from the exact
decimal; the line item extracted from a `det` with `qCom = 0.1` carries
that rounded quantity. -/
theorem quantidades_decimais_exatas_counterexample :
    parseDecimal "0.1" = some (1 / 10 : ℚ) ∧
    pyFloatField (some "0.1") = some ((3602879701896397 : ℚ) / 2 ^ 55) ∧
    (extract_itens_aux [detDecimal]).map (fun its => its.map ItemData.quantidade) =
      some [(3602879701896397 : ℚ) / 2 ^ 55] ∧
    ((3602879701896397 : ℚ) / 2 ^ 55) ≠ 1 / 10 := by
  have hpd : parseDecimal "0.1" = some (1 / 10 : ℚ) := by
    simp [parseDecimal, parseUnsignedDecimal, splitOnDot, digitsToNat, digitVal]
  have hfield : pyFloatField (some "0.1") = some ((3602879701896397 : ℚ) / 2 ^ 55) := by
    rw [show pyFloatField (some "0.1") = pyFloatOfString "0.1" from rfl, pyFloatOfString, hpd,
      Option.map_some', roundDouble_tenth]
  have hnone : pyFloatField none = some 0 := rfl
  refine ⟨hpd, hfield, ?_, by norm_num⟩
  simp [extract_itens_aux, detDecimal, leafEl, XElem.findChild, XElem.children,
    XElem.childText, XElem.textOrEmpty, XElem.tag, XElem.text, hfield, hnone,
    extract_lote_data, XElem.findDeep, XElem.descendants, descendantsList,
    XElem.findtextDeep, searchLotePatterns, lote_patterns, reSearch, searchFrom]

/-- Claim C8 (amended): quantities are parsed through IEEE-754 binary64
floating point — the parser's numeric conversion `pyFloatOfString` is the
exact decimal value rounded to the nearest double — so a parsed quantity
equals its exact decimal value precisely when that value is binary64
representable: every dyadic rational `m · 2 ^ k` with `|m| < 2 ^ 53` in
the binary64 range (in particular every integer quantity below `2 ^ 53`)
is preserved exactly, while other decimals such as `0.1` are silently
rounded (see the counterexample). -/
theorem quantidades_por_float_dyadic (s : String) (q : ℚ) (m k : ℤ)
    (hparse : parseDecimal s = some q) (hq : q = (m : ℚ) * 2 ^ k)
    (hm : |m| < 2 ^ 53) (hk : -1074 ≤ k)
    (hrange : |q| < 2 ^ (1024 : ℤ)) :
    pyFloatOfString s = some q := by
  rw [pyFloatOfString, hparse, Option.map_some', hq, roundDouble_dyadic m k hm]

/-- Concrete instantiation of `quantidades_por_float_dyadic`: the decimal
literal `2.5` is binary64 representable (`5 · 2 ^ (-1)`) and is parsed
exactly. -/
theorem quantidades_por_float_dyadic_witness :
    pyFloatOfString "2.5" = some (5 / 2 : ℚ) := by
  have hparse : parseDecimal "2.5" = some (5 / 2 : ℚ) := by
    simp [parseDecimal, parseUnsignedDecimal, splitOnDot, digitsToNat, digitVal]
    norm_num
  have hq : (5 / 2 : ℚ) = ((5 : ℤ) : ℚ) * 2 ^ (-1 : ℤ) := by
    rw [show ((-1 : ℤ)) = -((1 : ℕ) : ℤ) from rfl, zpow_neg, zpow_natCast]
    norm_num
  have hrange : |(5 / 2 : ℚ)| < 2 ^ (1024 : ℤ) := by
    rw [show ((1024 : ℤ)) = ((1024 : ℕ) : ℤ) from rfl, zpow_natCast]
    rw [abs_of_pos (by norm_num)]
    calc (5 / 2 : ℚ) < 2 ^ 2 := by norm_num
      _ ≤ 2 ^ 1024 := by
          apply pow_le_pow_right₀ (by norm_num)
          norm_num
  exact quantidades_por_float_dyadic "2.5" (5 / 2) 5 (-1) hparse hq (by norm_num)
    (by norm_num) hrange
